import Mathlib

/-! Sector builder orchestrator (package sectorbuilder, rustsectorbuilder.go)

A shallow embedding of the Go proxy around the native sealing engine.

Modelling conventions:

* The native engine is a record of response functions (`Engine`); every
  operation of the proxy returns a `Run`: the trace of engine requests and
  poller / runtime calls it performed, and its outcome (a Go return tuple, or a
  run-time panic).
* A Go pointer to a struct is an `Option`; a Go `error` is `Option GoError`
  (`none` is `nil`); a slice is a `List` (the nil slice is `[]`).
* A C array pointer is `Option (Nat → T)`: `none` is NULL, `some mem` addresses
  the memory `mem 0, mem 1, ...`; the length travels separately, as in C.
* `uint64` values are `Nat`; no arithmetic is performed on them.
* Allocation and release of C temporaries (`C.CString`, `C.CBytes`, `C.free`,
  the `destroy_*_response` calls) and the `elapsed` debug log carry no data and
  are not part of the trace.
-/

namespace Sectorbuilder

/-! ## Go run-time values -/

/-- A byte. -/
abbrev Byte := Fin 256

/-- An untyped native pointer (Go `Pointer`); `nil` is address 0. -/
abbrev Pointer := Nat

/-- The nil pointer. -/
def nil : Pointer := 0

/-- Go errors as built by the errors package: `fundamental` is what `errors.New`
and `errors.Errorf` build (and stands for errors of external libraries),
`withMessage` is what `errors.Wrap` / `errors.Wrapf` build around a cause. An
error is given by its messages; the call stack that the package records for
debugging output is not represented. -/
inductive GoError where
  | fundamental (msg : String)
  | withMessage (cause : GoError) (msg : String)
deriving DecidableEq, Repr

/-- The text of an error (Go method `Error()`). -/
def GoError.Error : GoError → String
  | .fundamental msg => msg
  | .withMessage cause msg => msg ++ ": " ++ cause.Error

namespace errors

/-- Go `errors.New(msg)`. -/
def New (msg : String) : GoError := .fundamental msg

/-- Go `errors.Errorf(format, v)` for the one format used here, `"... %v"`:
the text is the format's literal part followed by the formatted value. -/
def Errorf (literal : String) (formatted : String) : GoError :=
  .fundamental (literal ++ formatted)

/-- Go `errors.Wrap(err, msg)` for a non-nil `err`. -/
def Wrap (err : GoError) (msg : String) : GoError := .withMessage err msg

/-- Go `errors.Wrapf(err, format)` with a format without verbs. -/
def Wrapf (err : GoError) (msg : String) : GoError := .withMessage err msg

end errors

/-- The result of running Go code: it returns a value or it panics. -/
inductive Outcome (α : Type) where
  | ret (a : α)
  | panic (msg : String)
deriving DecidableEq, Repr

/-- A fixed-size byte array (`[n]byte` in Go, `uint8_t[n]` in C). -/
structure ByteArr (n : Nat) where
  bytes : List Byte
  size_eq : bytes.length = n
deriving DecidableEq, Repr

/-- The zero value of `[n]byte`. -/
def ByteArr.zero (n : Nat) : ByteArr n := ⟨List.replicate n 0, List.length_replicate n 0⟩

/-- The memory addressed by `&a[0]`: element `i` of the array (bytes past the
array are outside the struct field and read as 0 here; no call reads them). -/
def ByteArr.addr {n : Nat} (a : ByteArr n) : Nat → Byte := fun i => a.bytes.getD i 0

/-- The builtin `copy(dst, src)` on slices: overwrites the first
`min (len dst) (len src)` elements of `dst`. -/
def copySlice {α : Type} (dst src : List α) : List α :=
  src.take dst.length ++ dst.drop src.length

/-- The statement `copy(dst[:], src)` for an array `dst`. -/
def ByteArr.copy {n : Nat} (dst : ByteArr n) (src : List Byte) : ByteArr n :=
  ⟨copySlice dst.bytes src, by
    simp only [copySlice, List.length_append, List.length_take, List.length_drop, dst.size_eq]
    omega⟩

/-- Go `C.GoBytes(p, n)` for a non-null `p` and `0 ≤ n`: a fresh slice holding
the `n` bytes at `p`. -/
def GoBytes (p : Nat → Byte) (n : Nat) : List Byte := (List.range n).map p

/-- Go conversion `C.int(x)` of an unsigned 64-bit value: the low 32 bits, read
as a signed 32-bit integer. -/
def toCInt (x : Nat) : Int :=
  if x % 2 ^ 32 < 2 ^ 31 then (x % 2 ^ 32 : Nat) else ((x % 2 ^ 32 : Nat) : Int) - 2 ^ 32

/-- The element count of the array type `[1 << 30]T` through which the decoders
view engine memory; slicing it beyond this capacity panics. -/
def maxCArrayLen : Nat := 2 ^ 30

/-- The largest length of a slice of pointers that `make` accepts; beyond it the
runtime panics with `makeslice: len out of range`. The value is that of the Go
runtime on 64-bit platforms: an allocation limit of `2 ^ 48` bytes, for elements
of 8 bytes. Exhaustion of memory below this limit is not modelled. -/
def maxSliceLen : Nat := 2 ^ 48 / 8

/-- Go `make([]*T, size)`: a slice of `size` nil pointers, or the panic of the
runtime when `size` is out of range. -/
def makeSlice (α : Type) (size : Nat) : Outcome (List (Option α)) :=
  if size > maxSliceLen then .panic "makeslice: len out of range"
  else .ret (List.replicate size none)

/-! ## External collaborators -/

/-- A content identifier (go-cid `Cid`); its structure is not inspected. -/
structure Cid where
  raw : String
deriving DecidableEq, Repr

/-- A resolved DAG node of the content store; its structure is not inspected. -/
structure IpldNode where
  raw : List Byte
deriving DecidableEq, Repr

/-- The result of one `Read(buf)` call: the bytes delivered into the front of
`buf` (their number is the `n` that `Read` returns) and the error returned. -/
structure ReadResult where
  data : List Byte
  err : Option GoError
deriving DecidableEq, Repr

/-- A DAG reader: `Read` is given the length of the buffer it may fill. -/
structure DagReader where
  Read : Nat → ReadResult

/-- The content store as seen through `dag.NewDAGService(blockService)`:
`Get` is `dagService.Get(ctx, ref)`, `NewDagReader` is
`uio.NewDagReader(ctx, node, dagService)`. -/
structure BlockService where
  Get : Cid → Except GoError IpldNode
  NewDagReader : IpldNode → Except GoError DagReader

/-- Functions of other packages that the file calls, taken as parameters:
`cid.Cid.String`, `cid.Decode`, `proofs.CSectorStoreType`, the `%v` rendering of a
`proofs.SectorStoreType`, and `AddressToProverID`. -/
structure Lib where
  CidString : Cid → String
  Decode : String → Except GoError Cid
  CSectorStoreType : Nat → Except GoError Pointer
  SectorStoreTypeString : Nat → String
  AddressToProverID : List Byte → ByteArr 31

/-! ## The engine protocol (libfilecoin_proofs.h) -/

/-- Modelled from the spec: the seal-status enumeration of the engine header
libfilecoin_proofs.h, which is not part of the sources. Spec §6 gives
`status ∈ {Pending, Sealing, Sealed, Failed}`; `Other code` is any further value
the C field can hold. -/
inductive FFISealStatus where
  | Sealed
  | Pending
  | Failed
  | Sealing
  | Other (code : Nat)
deriving DecidableEq, Repr

/-- C struct `FFIPieceMetadata`: a piece key in text form and a byte count. -/
structure FFIPieceMetadata where
  piece_key : String
  num_bytes : Nat
deriving DecidableEq, Repr

/-- C struct `FFIStagedSectorMetadata`. -/
structure FFIStagedSectorMetadata where
  sector_id : Nat
deriving DecidableEq, Repr

/-- C struct `FFISealedSectorMetadata`. -/
structure FFISealedSectorMetadata where
  comm_d : ByteArr 32
  comm_r : ByteArr 32
  comm_r_star : ByteArr 32
  pieces_len : Nat
  pieces_ptr : Option (Nat → FFIPieceMetadata)
  sector_id : Nat
  snark_proof : ByteArr 384

/-- Arguments of `init_sector_builder`, in call order. -/
structure InitArgs where
  sector_store_config : Pointer
  last_used_sector_id : Nat
  metadata_dir : String
  prover_id : ByteArr 31
  sealed_sector_dir : String
  staged_sector_dir : String
  max_num_staged_sectors : Nat
deriving DecidableEq, Repr

/-- C struct `InitSectorBuilderResponse`. -/
structure InitSectorBuilderResponse where
  status_code : Nat
  error_msg : String
  sector_builder : Pointer
deriving DecidableEq, Repr

/-- C struct `GetMaxStagedBytesPerSector`. -/
structure GetMaxStagedBytesPerSector where
  status_code : Nat
  error_msg : String
  max_staged_bytes_per_sector : Nat
deriving DecidableEq, Repr

/-- C struct `AddPieceResponse`. -/
structure AddPieceResponse where
  status_code : Nat
  error_msg : String
  sector_id : Nat
deriving DecidableEq, Repr

/-- C struct `GetSealStatusResponse`. -/
structure GetSealStatusResponse where
  status_code : Nat
  error_msg : String
  seal_status_code : FFISealStatus
  seal_error_msg : String
  comm_d : ByteArr 32
  comm_r : ByteArr 32
  comm_r_star : ByteArr 32
  snark_proof : ByteArr 384
  pieces_ptr : Option (Nat → FFIPieceMetadata)
  pieces_len : Nat

/-- C struct `ReadPieceFromSealedSectorResponse`. -/
structure ReadPieceFromSealedSectorResponse where
  status_code : Nat
  error_msg : String
  data_ptr : Option (Nat → Byte)
  data_len : Nat

/-- C struct `SealAllStagedSectorsResponse`. -/
structure SealAllStagedSectorsResponse where
  status_code : Nat
  error_msg : String
deriving DecidableEq, Repr

/-- C struct `GetSealedSectorsResponse`. -/
structure GetSealedSectorsResponse where
  status_code : Nat
  error_msg : String
  sectors_ptr : Option (Nat → FFISealedSectorMetadata)
  sectors_len : Nat

/-- C struct `GetStagedSectorsResponse`. -/
structure GetStagedSectorsResponse where
  status_code : Nat
  error_msg : String
  sectors_ptr : Option (Nat → FFIStagedSectorMetadata)
  sectors_len : Nat

/-- The native sealing engine: the response it gives to each request. -/
structure Engine where
  init_sector_builder : InitArgs → InitSectorBuilderResponse
  get_max_user_bytes_per_staged_sector : Pointer → GetMaxStagedBytesPerSector
  add_piece : Pointer → String → List Byte → Nat → AddPieceResponse
  get_seal_status : Pointer → Nat → GetSealStatusResponse
  read_piece_from_sealed_sector : Pointer → String → ReadPieceFromSealedSectorResponse
  seal_all_staged_sectors : Pointer → SealAllStagedSectorsResponse
  get_sealed_sectors : Pointer → GetSealedSectorsResponse
  get_staged_sectors : Pointer → GetStagedSectorsResponse

/-- What an operation does to the outside: requests to the engine, and calls to
the poller and the Go runtime. -/
inductive Event where
  | init_sector_builder (args : InitArgs)
  | get_max_user_bytes_per_staged_sector (ptr : Pointer)
  | add_piece (ptr : Pointer) (piece_key : String) (data : List Byte) (len : Nat)
  | get_seal_status (ptr : Pointer) (sector_id : Nat)
  | read_piece_from_sealed_sector (ptr : Pointer) (piece_key : String)
  | seal_all_staged_sectors (ptr : Pointer)
  | get_sealed_sectors (ptr : Pointer)
  | get_staged_sectors (ptr : Pointer)
  | destroy_sector_builder (ptr : Pointer)
  | newSealStatusPoller (sectorIDs : List Nat)
  | go_addSectorID (sectorID : Nat)
  | stop
  | SetFinalizer
deriving DecidableEq, Repr

/-- An operation run to its end: what it did and how it ended. -/
structure Run (α : Type) where
  trace : List Event
  out : Outcome α

/-! ## Data of the package -/

/-- MaxNumStagedSectors configures the maximum number of staged sectors which
can be open and accepting data at any time. -/
def MaxNumStagedSectors : Nat := 1

/-- Go struct `stagedSectorMetadata`. -/
structure stagedSectorMetadata where
  sectorID : Nat
deriving DecidableEq, Repr

/-- Go struct `PieceInfo` (declared in another file of the package): reference
and size of a piece. -/
structure PieceInfo where
  Ref : Cid
  Size : Nat
deriving DecidableEq, Repr

/-- Go struct `SealedSectorMetadata` (declared in another file of the package),
with the fields this file assigns. -/
structure SealedSectorMetadata where
  CommD : ByteArr 32
  CommR : ByteArr 32
  CommRStar : ByteArr 32
  Pieces : List (Option PieceInfo)
  Proof : ByteArr 384
  SectorID : Nat
deriving DecidableEq, Repr

/-- Modelled from the spec: the seal status poller (its file is not part of the
sources). Only its construction is recorded: the sector IDs it is seeded with;
its result channel and status function are those of the builder that owns it. -/
structure sealStatusPoller where
  sectorIDs : List Nat
deriving DecidableEq, Repr

/-- Go struct `RustSectorBuilder`; the result channel carries no state here. -/
structure RustSectorBuilder where
  blockService : BlockService
  ptr : Pointer
  sealStatusPoller : Option sealStatusPoller

/-- Go struct `RustSectorBuilderConfig`. -/
structure RustSectorBuilderConfig where
  BlockService : BlockService
  LastUsedSectorID : Nat
  MetadataDir : String
  MinerAddr : List Byte
  SealedSectorDir : String
  SectorStoreType : Nat
  StagedSectorDir : String

/-! ## Decoders of engine memory -/

/-- The loop of `goPieceInfos`: `k` iterations are left, `i` is the loop index,
`ps` the slice being filled. A key that does not decode ends the function with
`nil` and the decoder's error. -/
def goPieceInfos.loop (L : Lib) (ptrs : Nat → FFIPieceMetadata) :
    Nat → Nat → List (Option PieceInfo) → List (Option PieceInfo) × Option GoError
  | 0, _, ps => (ps, none)
  | k + 1, i, ps =>
    match L.Decode (ptrs i).piece_key with
    | .error err => ([], some err)
    | .ok ref =>
      goPieceInfos.loop L ptrs k (i + 1) (ps.set i (some { Ref := ref, Size := (ptrs i).num_bytes }))

/-- Go `goPieceInfos(src, size)`. The slice is made before the source pointer is
looked at, so a size that `make` refuses panics for a null pointer too. -/
def goPieceInfos (L : Lib) (src : Option (Nat → FFIPieceMetadata)) (size : Nat) :
    Outcome (List (Option PieceInfo) × Option GoError) :=
  match makeSlice PieceInfo size with
  | .panic msg => .panic msg
  | .ret ps =>
    match src with
    | none => .ret (ps, none)
    | some mem =>
      if size = 0 then .ret (ps, none)
      else if size > maxCArrayLen then .panic "slice bounds out of range"
      else .ret (goPieceInfos.loop L mem size 0 ps)

/-- The loop of `goStagedSectorMetadata`. -/
def goStagedSectorMetadata.loop (sectorPtrs : Nat → FFIStagedSectorMetadata) :
    Nat → Nat → List (Option stagedSectorMetadata) → List (Option stagedSectorMetadata)
  | 0, _, sectors => sectors
  | k + 1, i, sectors =>
    goStagedSectorMetadata.loop sectorPtrs k (i + 1)
      (sectors.set i (some { sectorID := (sectorPtrs i).sector_id }))

/-- Go `goStagedSectorMetadata(src, size)`. The slice is made before the source pointer is
looked at, so a size that `make` refuses panics for a null pointer too. -/
def goStagedSectorMetadata (src : Option (Nat → FFIStagedSectorMetadata)) (size : Nat) :
    Outcome (List (Option stagedSectorMetadata) × Option GoError) :=
  match makeSlice stagedSectorMetadata size with
  | .panic msg => .panic msg
  | .ret sectors =>
    match src with
    | none => .ret (sectors, none)
    | some mem =>
      if size = 0 then .ret (sectors, none)
      else if size > maxCArrayLen then .panic "slice bounds out of range"
      else .ret (goStagedSectorMetadata.loop mem size 0 sectors, none)

/-- The loop of `goSealedSectorMetadata`. -/
def goSealedSectorMetadata.loop (L : Lib) (sectorPtrs : Nat → FFISealedSectorMetadata) :
    Nat → Nat → List (Option SealedSectorMetadata) →
      Outcome (List (Option SealedSectorMetadata) × Option GoError)
  | 0, _, sectors => .ret (sectors, none)
  | k + 1, i, sectors =>
    let secPtr := sectorPtrs i
    let commRSlice := GoBytes secPtr.comm_r.addr 32
    let commR := (ByteArr.zero 32).copy commRSlice
    let commDSlice := GoBytes secPtr.comm_d.addr 32
    let commD := (ByteArr.zero 32).copy commDSlice
    let commRStarSlice := GoBytes secPtr.comm_r_star.addr 32
    let commRStar := (ByteArr.zero 32).copy commRStarSlice
    let proofSlice := GoBytes secPtr.snark_proof.addr 384
    let proof := (ByteArr.zero 384).copy proofSlice
    match goPieceInfos L secPtr.pieces_ptr secPtr.pieces_len with
    | .panic msg => .panic msg
    | .ret (_, some err) => .ret ([], some (errors.Wrap err "failed to marshal from string to cid"))
    | .ret (ps, none) =>
      goSealedSectorMetadata.loop L sectorPtrs k (i + 1)
        (sectors.set i (some
          { CommD := commD
            CommR := commR
            CommRStar := commRStar
            Pieces := ps
            Proof := proof
            SectorID := secPtr.sector_id }))

/-- Go `goSealedSectorMetadata(src, size)`. The slice is made before the source pointer is
looked at, so a size that `make` refuses panics for a null pointer too. -/
def goSealedSectorMetadata (L : Lib) (src : Option (Nat → FFISealedSectorMetadata)) (size : Nat) :
    Outcome (List (Option SealedSectorMetadata) × Option GoError) :=
  match makeSlice SealedSectorMetadata size with
  | .panic msg => .panic msg
  | .ret sectors =>
    match src with
    | none => .ret (sectors, none)
    | some mem =>
      if size = 0 then .ret (sectors, none)
      else if size > maxCArrayLen then .panic "slice bounds out of range"
      else goSealedSectorMetadata.loop L mem size 0 sectors

/-! ## Operations of RustSectorBuilder -/

/-- Go method `stagedSectors`. -/
def stagedSectors (E : Engine) (sb : RustSectorBuilder) :
    Run (List (Option stagedSectorMetadata) × Option GoError) :=
  let resPtr := E.get_staged_sectors sb.ptr
  let trace := [Event.get_staged_sectors sb.ptr]
  if resPtr.status_code ≠ 0 then
    ⟨trace, .ret ([], some (errors.New resPtr.error_msg))⟩
  else
    match goStagedSectorMetadata resPtr.sectors_ptr resPtr.sectors_len with
    | .panic msg => ⟨trace, .panic msg⟩
    | .ret (_, some err) => ⟨trace, .ret ([], some err)⟩
    | .ret (meta, none) => ⟨trace, .ret (meta, none)⟩

/-- The loop `for idx, m := range metadata { stagedSectorIDs[idx] = m.sectorID }`
of NewRustSectorBuilder; reading `sectorID` through a nil entry panics. -/
def stagedSectorIDs.loop :
    List (Option stagedSectorMetadata) → Nat → List Nat → Outcome (List Nat)
  | [], _, stagedSectorIDs => .ret stagedSectorIDs
  | none :: _, _, _ => .panic "invalid memory address or nil pointer dereference"
  | some m :: rest, idx, stagedSectorIDs =>
    stagedSectorIDs.loop rest (idx + 1) (stagedSectorIDs.set idx m.sectorID)

/-- Go method `destroy`: deallocates and destroys the engine's sector builder. -/
def destroy (sb : RustSectorBuilder) : Run RustSectorBuilder :=
  ⟨[Event.destroy_sector_builder sb.ptr], .ret { sb with ptr := nil }⟩

/-- The function that NewRustSectorBuilder registers with `runtime.SetFinalizer`. -/
def finalizer (o : RustSectorBuilder) : Run RustSectorBuilder := destroy o

/-- The argument list of the `init_sector_builder` call of NewRustSectorBuilder,
for the store configuration `scfg` that `proofs.CSectorStoreType` returned. The
last argument is `C.uint8_t(MaxNumStagedSectors)`. -/
def initArgs (L : Lib) (cfg : RustSectorBuilderConfig) (scfg : Pointer) : InitArgs :=
  { sector_store_config := scfg
    last_used_sector_id := cfg.LastUsedSectorID
    metadata_dir := cfg.MetadataDir
    prover_id := L.AddressToProverID cfg.MinerAddr
    sealed_sector_dir := cfg.SealedSectorDir
    staged_sector_dir := cfg.StagedSectorDir
    max_num_staged_sectors := MaxNumStagedSectors % 2 ^ 8 }

/-- Go `NewRustSectorBuilder(cfg)`. -/
def NewRustSectorBuilder (L : Lib) (E : Engine) (cfg : RustSectorBuilderConfig) :
    Run (Option RustSectorBuilder × Option GoError) :=
  match L.CSectorStoreType cfg.SectorStoreType with
  | .error _ =>
    ⟨[], .ret (none, some (errors.Errorf "unknown sector store type: "
      (L.SectorStoreTypeString cfg.SectorStoreType)))⟩
  | .ok scfg =>
    let args : InitArgs := initArgs L cfg scfg
    let resPtr := E.init_sector_builder args
    let trace := [Event.init_sector_builder args]
    if resPtr.status_code ≠ 0 then
      ⟨trace, .ret (none, some (errors.New resPtr.error_msg))⟩
    else
      let sb : RustSectorBuilder :=
        { blockService := cfg.BlockService
          ptr := resPtr.sector_builder
          sealStatusPoller := none }
      let staged := stagedSectors E sb
      match staged.out with
      | .panic msg => ⟨trace ++ staged.trace, .panic msg⟩
      | .ret (_, some err) =>
        ⟨trace ++ staged.trace,
          .ret (none, some (errors.Wrap err "failed to load staged sectors"))⟩
      | .ret (metadata, none) =>
        match stagedSectorIDs.loop metadata 0 (List.replicate metadata.length 0) with
        | .panic msg => ⟨trace ++ staged.trace, .panic msg⟩
        | .ret stagedSectorIDs =>
          ⟨trace ++ staged.trace ++ [Event.newSealStatusPoller stagedSectorIDs, Event.SetFinalizer],
            .ret (some { sb with sealStatusPoller := some ⟨stagedSectorIDs⟩ }, none)⟩

/-- Go method `GetMaxUserBytesPerStagedSector`. -/
def GetMaxUserBytesPerStagedSector (E : Engine) (sb : RustSectorBuilder) :
    Run (Nat × Option GoError) :=
  let resPtr := E.get_max_user_bytes_per_staged_sector sb.ptr
  let trace := [Event.get_max_user_bytes_per_staged_sector sb.ptr]
  if resPtr.status_code ≠ 0 then
    ⟨trace, .ret (0, some (errors.New resPtr.error_msg))⟩
  else
    ⟨trace, .ret (resPtr.max_staged_bytes_per_sector, none)⟩

/-- The buffer `make([]byte, size)` after a `Read` into it: `size` zero bytes whose
front is overwritten with what the reader delivered. -/
def readInto (size : Nat) (rd : ReadResult) : List Byte :=
  copySlice (List.replicate size (0 : Byte)) rd.data

/-- Go method `AddPiece`. The number of bytes that `Read` reports is discarded
(`_, err = r.Read(pieceBytes)`). The allocation of the buffer,
`make([]byte, pi.Size)`, is taken to succeed. -/
def AddPiece (L : Lib) (E : Engine) (sb : RustSectorBuilder) (pi : PieceInfo) :
    Run (Nat × Option GoError) :=
  let pieceKey := L.CidString pi.Ref
  match sb.blockService.Get pi.Ref with
  | .error err => ⟨[], .ret (0, some err)⟩
  | .ok rootIpldNode =>
    match sb.blockService.NewDagReader rootIpldNode with
    | .error err => ⟨[], .ret (0, some err)⟩
    | .ok r =>
      let rd := r.Read pi.Size
      let pieceBytes := readInto pi.Size rd
      match rd.err with
      | some err =>
        ⟨[], .ret (0, some (errors.Wrapf err "error reading piece bytes into buffer"))⟩
      | none =>
        let resPtr := E.add_piece sb.ptr pieceKey pieceBytes pieceBytes.length
        let trace := [Event.add_piece sb.ptr pieceKey pieceBytes pieceBytes.length]
        if resPtr.status_code ≠ 0 then
          ⟨trace, .ret (0, some (errors.New resPtr.error_msg))⟩
        else
          ⟨trace ++ [Event.go_addSectorID resPtr.sector_id], .ret (resPtr.sector_id, none)⟩

/-- Go method `findSealedSectorMetadata`, the status function handed to the
poller. -/
def findSealedSectorMetadata (L : Lib) (E : Engine) (sb : RustSectorBuilder) (sectorID : Nat) :
    Run (Option SealedSectorMetadata × Option GoError) :=
  let resPtr := E.get_seal_status sb.ptr sectorID
  let trace := [Event.get_seal_status sb.ptr sectorID]
  if resPtr.status_code ≠ 0 then
    ⟨trace, .ret (none, some (errors.New resPtr.error_msg))⟩
  else if resPtr.seal_status_code = FFISealStatus.Failed then
    ⟨trace, .ret (none, some (errors.New resPtr.seal_error_msg))⟩
  else if resPtr.seal_status_code = FFISealStatus.Pending then
    ⟨trace, .ret (none, none)⟩
  else if resPtr.seal_status_code = FFISealStatus.Sealing then
    ⟨trace, .ret (none, none)⟩
  else if resPtr.seal_status_code = FFISealStatus.Sealed then
    let commRSlice := GoBytes resPtr.comm_r.addr 32
    let commR := (ByteArr.zero 32).copy commRSlice
    let commDSlice := GoBytes resPtr.comm_d.addr 32
    let commD := (ByteArr.zero 32).copy commDSlice
    let commRStarSlice := GoBytes resPtr.comm_r_star.addr 32
    let commRStar := (ByteArr.zero 32).copy commRStarSlice
    let proofSlice := GoBytes resPtr.snark_proof.addr 384
    let proof := (ByteArr.zero 384).copy proofSlice
    match goPieceInfos L resPtr.pieces_ptr resPtr.pieces_len with
    | .panic msg => ⟨trace, .panic msg⟩
    | .ret (_, some err) =>
      ⟨trace, .ret (none, some (errors.Wrap err "failed to marshal from string to cid"))⟩
    | .ret (ps, none) =>
      ⟨trace, .ret (some
        { CommD := commD
          CommR := commR
          CommRStar := commRStar
          Pieces := ps
          Proof := proof
          SectorID := sectorID }, none)⟩
  else
    ⟨trace, .ret (none, some (errors.New "unexpected seal status"))⟩

/-- Go method `ReadPieceFromSealedSector`; the reader it returns is given by the
bytes it reads. `C.GoBytes` panics on a negative length and faults on a null
pointer with a positive length. -/
def ReadPieceFromSealedSector (L : Lib) (E : Engine) (sb : RustSectorBuilder) (pieceCid : Cid) :
    Run (Option (List Byte) × Option GoError) :=
  let cPieceKey := L.CidString pieceCid
  let resPtr := E.read_piece_from_sealed_sector sb.ptr cPieceKey
  let trace := [Event.read_piece_from_sealed_sector sb.ptr cPieceKey]
  if resPtr.status_code ≠ 0 then
    ⟨trace, .ret (none, some (errors.New resPtr.error_msg))⟩
  else
    let n := toCInt resPtr.data_len
    if n < 0 then ⟨trace, .panic "gobytes: length out of range"⟩
    else if n = 0 then ⟨trace, .ret (some [], none)⟩
    else
      match resPtr.data_ptr with
      | none => ⟨trace, .panic "invalid memory address or nil pointer dereference"⟩
      | some mem => ⟨trace, .ret (some (GoBytes mem n.toNat), none)⟩

/-- Go method `SealAllStagedSectors`. -/
def SealAllStagedSectors (E : Engine) (sb : RustSectorBuilder) : Run (Option GoError) :=
  let resPtr := E.seal_all_staged_sectors sb.ptr
  let trace := [Event.seal_all_staged_sectors sb.ptr]
  if resPtr.status_code ≠ 0 then
    ⟨trace, .ret (some (errors.New resPtr.error_msg))⟩
  else
    ⟨trace, .ret none⟩

/-- Go method `SealedSectors`. -/
def SealedSectors (L : Lib) (E : Engine) (sb : RustSectorBuilder) :
    Run (List (Option SealedSectorMetadata) × Option GoError) :=
  let resPtr := E.get_sealed_sectors sb.ptr
  let trace := [Event.get_sealed_sectors sb.ptr]
  if resPtr.status_code ≠ 0 then
    ⟨trace, .ret ([], some (errors.New resPtr.error_msg))⟩
  else
    match goSealedSectorMetadata L resPtr.sectors_ptr resPtr.sectors_len with
    | .panic msg => ⟨trace, .panic msg⟩
    | .ret (_, some err) => ⟨trace, .ret ([], some err)⟩
    | .ret (meta, none) => ⟨trace, .ret (meta, none)⟩

/-- Go method `Close`: shuts down the RustSectorBuilder's poller. It returns the
builder as it leaves it, and the error. -/
def Close (sb : RustSectorBuilder) : Run (RustSectorBuilder × Option GoError) :=
  ⟨[Event.stop], .ret (sb, none)⟩

/-! ## Vocabulary of the statements -/

/-- The sector IDs that a trace dispatches to the poller through
`go sb.sealStatusPoller.addSectorID(id)`, in order. -/
def dispatchedIDs : List Event → List Nat
  | [] => []
  | Event.go_addSectorID sectorID :: rest => sectorID :: dispatchedIDs rest
  | _ :: rest => dispatchedIDs rest

/-- The piece keys and data that a trace submits to the engine's add-piece
request, in order. -/
def submittedPieces : List Event → List (String × List Byte)
  | [] => []
  | Event.add_piece _ piece_key data _ :: rest => (piece_key, data) :: submittedPieces rest
  | _ :: rest => submittedPieces rest

/-- The handles on which a trace invokes the engine's destroy, in order. -/
def destroyedHandles : List Event → List Pointer
  | [] => []
  | Event.destroy_sector_builder ptr :: rest => ptr :: destroyedHandles rest
  | _ :: rest => destroyedHandles rest

/-- The seed lists with which a trace constructs pollers, in order. -/
def pollerSeeds : List Event → List (List Nat)
  | [] => []
  | Event.newSealStatusPoller sectorIDs :: rest => sectorIDs :: pollerSeeds rest
  | _ :: rest => pollerSeeds rest

/-- Some key among the `size` pieces at a non-null `src` does not decode. -/
def HasBadKey (L : Lib) (src : Option (Nat → FFIPieceMetadata)) (size : Nat) : Prop :=
  ∃ mem, src = some mem ∧ ∃ j, j < size ∧ ∃ err, L.Decode (mem j).piece_key = .error err

/-- The Go piece list `ps` renders the `size` pieces at `src`: it has `size`
entries; for a non-null `src` entry `j` is present and holds the decoded key
and the byte count of piece `j`; for a null `src` every entry is missing. -/
def RendersPieces (L : Lib) (src : Option (Nat → FFIPieceMetadata)) (size : Nat)
    (ps : List (Option PieceInfo)) : Prop :=
  ps.length = size ∧
    (∀ mem, src = some mem → ∀ j, j < size →
      ∃ ref, L.Decode (mem j).piece_key = .ok ref ∧
        ps[j]? = some (some { Ref := ref, Size := (mem j).num_bytes })) ∧
    (src = none → ∀ j, j < size → ps[j]? = some none)

/-- The Go record `sealed` renders the engine's sealed-sector entry `e`: same
sector ID, the entry's comm_d, comm_r, comm_r_star and snark_proof each in
the field of its name, and pieces that render the entry's piece list. -/
def RendersSector (L : Lib) (e : FFISealedSectorMetadata) (sealed : SealedSectorMetadata) :
    Prop :=
  sealed.SectorID = e.sector_id ∧
    sealed.CommD = e.comm_d ∧
    sealed.CommR = e.comm_r ∧
    sealed.CommRStar = e.comm_r_star ∧
    sealed.Proof = e.snark_proof ∧
    sealed.Proof.bytes.length = 384 ∧
    RendersPieces L e.pieces_ptr e.pieces_len sealed.Pieces

/-! ## The engine's staging state -/

/-- Modelled from the spec: the staging state of the sealing engine, whose code is
not part of the sources (spec sections 3 and 6): the max-staged-sectors value
it was initialised with and the number of staged sectors that are open. -/
structure StagingState where
  max_staged_sectors : Nat
  open_staged_sectors : Nat
deriving DecidableEq, Repr

/-- Modelled from the spec: a sealing engine with staging state. `on_init` is the
state in which an init request leaves the engine, `respond` gives the answers
of the engine in a state, `on_add_piece` is the state in which an add-piece
request leaves it. -/
structure StagingEngine where
  on_init : InitArgs → StagingState
  respond : StagingState → Engine
  on_add_piece : StagingState → Pointer → String → List Byte → Nat → StagingState

/-- Modelled from the spec: the capacity contract of the engine (spec section 3,
open staged sectors never exceed the configured maximum). Init adopts the
maximum it is given and opens no more sectors than that; an add-piece request
keeps the maximum and, from a state within the maximum, stays within it. -/
def StagingEngine.HonoursMaximum (S : StagingEngine) : Prop :=
  (∀ args, (S.on_init args).max_staged_sectors = args.max_num_staged_sectors ∧
    (S.on_init args).open_staged_sectors ≤ args.max_num_staged_sectors) ∧
  (∀ s ptr key data len,
    (S.on_add_piece s ptr key data len).max_staged_sectors = s.max_staged_sectors ∧
    (s.open_staged_sectors ≤ s.max_staged_sectors →
      (S.on_add_piece s ptr key data len).open_staged_sectors ≤ s.max_staged_sectors))

/-- The staging state after the engine has served the add-piece requests of a
trace, in order; the other events that AddPiece performs are not requests to
the engine. -/
def afterRequests (S : StagingEngine) : StagingState → List Event → StagingState
  | s, [] => s
  | s, Event.add_piece ptr piece_key data len :: rest =>
    afterRequests S (S.on_add_piece s ptr piece_key data len) rest
  | s, _ :: rest => afterRequests S s rest

/-- The staging state after a sequence of AddPiece calls on the builder `sb`,
each answered by the engine in the state the previous calls left it in. -/
def afterAddPieces (L : Lib) (S : StagingEngine) (sb : RustSectorBuilder) :
    StagingState → List PieceInfo → StagingState
  | s, [] => s
  | s, pi :: rest =>
    afterAddPieces L S sb (afterRequests S s (AddPiece L (S.respond s) sb pi).trace) rest

/-! ## Concrete inputs -/

/-- A library in which every non-empty key decodes (to the identifier with that
text) and store type 0 is the only known one. -/
def libText : Lib :=
  { CidString := fun c => c.raw
    Decode := fun s => if s = "" then .error (errors.New "cid too short") else .ok ⟨s⟩
    CSectorStoreType := fun t => if t = 0 then .ok 100 else .error (errors.New "unknown")
    SectorStoreTypeString := fun t => toString t
    AddressToProverID := fun _ => ByteArr.zero 31 }

/-- A reader that delivers the bytes `data` (cut to the buffer) and no error. -/
def readerOf (data : List Byte) : DagReader :=
  { Read := fun n => { data := data.take n, err := none } }

/-- A content store in which every reference resolves to a node holding the
reference's text length in bytes `1, 2, ...`; the reader delivers them. -/
def storeCounting : BlockService :=
  { Get := fun c => .ok ⟨(List.range c.raw.length).map (fun i => Fin.ofNat (i + 1))⟩
    NewDagReader := fun node => .ok (readerOf node.raw) }

/-- A configuration with store type 0. -/
def cfgDisk : RustSectorBuilderConfig :=
  { BlockService := storeCounting
    LastUsedSectorID := 0
    MetadataDir := "/meta"
    MinerAddr := []
    SealedSectorDir := "/sealed"
    SectorStoreType := 0
    StagedSectorDir := "/staged" }

/-- An engine that answers every request with status 0: handle 1, capacity 127,
sector 7 for every piece, seal status Pending, empty lists and data. -/
def engOk : Engine :=
  { init_sector_builder := fun _ => ⟨0, "", 1⟩
    get_max_user_bytes_per_staged_sector := fun _ => ⟨0, "", 127⟩
    add_piece := fun _ _ _ _ => ⟨0, "", 7⟩
    get_seal_status := fun _ _ =>
      ⟨0, "", .Pending, "", ByteArr.zero 32, ByteArr.zero 32, ByteArr.zero 32, ByteArr.zero 384,
        none, 0⟩
    read_piece_from_sealed_sector := fun _ _ => ⟨0, "", none, 0⟩
    seal_all_staged_sectors := fun _ => ⟨0, ""⟩
    get_sealed_sectors := fun _ => ⟨0, "", none, 0⟩
    get_staged_sectors := fun _ => ⟨0, "", none, 0⟩ }

/-- Engine memory holding the staged sectors 3, 5, 5, ... -/
def memStaged35 : Nat → FFIStagedSectorMetadata :=
  fun i => if i = 0 then ⟨3⟩ else ⟨5⟩

/-- An engine whose staged-sector list is `[3, 5]`. -/
def engStaged35 : Engine :=
  { engOk with get_staged_sectors := fun _ => ⟨0, "", some memStaged35, 2⟩ }

/-- An engine whose staged-sector list has `2 ^ 30 + 1` entries. -/
def engStagedHuge : Engine :=
  { engOk with get_staged_sectors := fun _ => ⟨0, "", some memStaged35, 2 ^ 30 + 1⟩ }

/-- A builder on handle 1 over the counting store, with an unseeded poller. -/
def sbOne : RustSectorBuilder :=
  { blockService := storeCounting, ptr := 1, sealStatusPoller := some ⟨[]⟩ }

/-- An engine that reports seal status Failed with the message "disk full". -/
def engDiskFull : Engine :=
  { engOk with
    get_seal_status := fun _ _ =>
      ⟨0, "", .Failed, "disk full", ByteArr.zero 32, ByteArr.zero 32, ByteArr.zero 32,
        ByteArr.zero 384, none, 0⟩ }

/-- Engine memory holding the piece `p1` of 32 bytes at every index. -/
def memPieceP1 : Nat → FFIPieceMetadata :=
  fun _ => ⟨"p1", 32⟩

/-- A 32-byte value whose bytes all equal `b`. -/
def comm (b : Byte) : ByteArr 32 := ⟨List.replicate 32 b, List.length_replicate 32 b⟩

/-- A 384-byte proof whose bytes all equal `b`. -/
def snark (b : Byte) : ByteArr 384 := ⟨List.replicate 384 b, List.length_replicate 384 b⟩

/-- An engine that reports sector status Sealed with commitments of bytes 1
(commD), 2 (commR), 3 (commRStar), a proof of bytes 4 and the one piece `p1`. -/
def engSealedP1 : Engine :=
  { engOk with
    get_seal_status := fun _ _ =>
      ⟨0, "", .Sealed, "", comm 1, comm 2, comm 3, snark 4, some memPieceP1, 1⟩ }

/-- An engine that reports status Sealed with a piece list of `2 ^ 30 + 1`
entries, each the piece `p1`. -/
def engSealedHuge : Engine :=
  { engOk with
    get_seal_status := fun _ _ =>
      ⟨0, "", .Sealed, "", comm 1, comm 2, comm 3, snark 4, some memPieceP1, 2 ^ 30 + 1⟩ }

/-- An engine that answers every request with status 1 and the message "boom"
(get-seal-status apart). -/
def engBoom : Engine :=
  { engOk with
    init_sector_builder := fun _ => ⟨1, "boom", 0⟩
    get_max_user_bytes_per_staged_sector := fun _ => ⟨1, "boom", 0⟩
    add_piece := fun _ _ _ _ => ⟨1, "boom", 0⟩
    read_piece_from_sealed_sector := fun _ _ => ⟨1, "boom", none, 0⟩
    seal_all_staged_sectors := fun _ => ⟨1, "boom"⟩
    get_sealed_sectors := fun _ => ⟨1, "boom", none, 0⟩ }

/-- The piece `p1` declared with 4 bytes; the counting store holds 2 bytes for it. -/
def pieceP1Short : PieceInfo := { Ref := ⟨"p1"⟩, Size := 4 }

/-- The piece `p1` declared with the 2 bytes the counting store holds for it. -/
def pieceP1 : PieceInfo := { Ref := ⟨"p1"⟩, Size := 2 }

/-- Engine memory of sealed sectors: entry `i` is sector `i`, with commitments of
bytes 1, 2, 3, a proof of bytes 4 and the one piece `p1`. -/
def memSealedP1 : Nat → FFISealedSectorMetadata :=
  fun i =>
    { comm_d := comm 1
      comm_r := comm 2
      comm_r_star := comm 3
      pieces_len := 1
      pieces_ptr := some memPieceP1
      sector_id := i
      snark_proof := snark 4 }

/-- Engine memory of pieces whose keys are empty and do not decode. -/
def memPieceBad : Nat → FFIPieceMetadata :=
  fun _ => ⟨"", 32⟩

/-- Engine memory of sealed sectors in which entry 1 holds a piece whose key
does not decode; the other entries are those of `memSealedP1`. -/
def memSealedBad : Nat → FFISealedSectorMetadata :=
  fun i => if i = 1 then { memSealedP1 1 with pieces_ptr := some memPieceBad } else memSealedP1 i

/-- An engine that answers get-staged-sectors with status 0, a null list pointer
and length 2. -/
def engStagedNull : Engine :=
  { engOk with get_staged_sectors := fun _ => ⟨0, "", none, 2⟩ }

/-- A configuration that differs from `cfgDisk` in every field but the store. -/
def cfgOther : RustSectorBuilderConfig :=
  { BlockService := storeCounting
    LastUsedSectorID := 41
    MetadataDir := "/m"
    MinerAddr := [1, 2, 3]
    SealedSectorDir := "/s1"
    SectorStoreType := 0
    StagedSectorDir := "/s2" }

/-- A staging engine that keeps at most the configured number of sectors open:
a piece goes to an open sector, and a sector is opened only below the maximum. -/
def stagingReuse : StagingEngine :=
  { on_init := fun args => ⟨args.max_num_staged_sectors, 0⟩
    respond := fun _ => engOk
    on_add_piece := fun s _ _ _ _ =>
      ⟨s.max_staged_sectors, min (s.open_staged_sectors + 1) s.max_staged_sectors⟩ }

/-! ## Lemmas on byte arrays -/

theorem GoBytes_addr {n : Nat} (a : ByteArr n) : GoBytes a.addr n = a.bytes := by
  apply List.ext_getElem
  · simp [GoBytes, a.size_eq]
  · intro i h1 h2
    simp [GoBytes, ByteArr.addr, List.getD_eq_getElem?_getD, List.getElem?_eq_getElem h2]

theorem copySlice_replicate {α : Type} (z : α) (src : List α) :
    copySlice (List.replicate src.length z) src = src := by
  simp [copySlice]

theorem ByteArr.eq_of_bytes {n : Nat} (a b : ByteArr n) (h : a.bytes = b.bytes) : a = b := by
  cases a
  cases b
  simp only at h
  subst h
  rfl

theorem copy_GoBytes {n : Nat} (a : ByteArr n) : (ByteArr.zero n).copy (GoBytes a.addr n) = a := by
  apply ByteArr.eq_of_bytes
  have h := copySlice_replicate (0 : Byte) a.bytes
  rw [a.size_eq] at h
  simpa only [ByteArr.copy, ByteArr.zero, GoBytes_addr] using h

/-! ## Lemmas on make -/

theorem makeSlice_of_le (α : Type) (n : Nat) (h : n ≤ 2 ^ 30) :
    makeSlice α n = .ret (List.replicate n none) := by
  have hn : ¬ n > maxSliceLen := by
    simp only [maxSliceLen]
    omega
  simp only [makeSlice, hn, if_false]

theorem goStagedSectorMetadata_over_capacity (mem : Nat → FFIStagedSectorMetadata) (n : Nat)
    (h1 : 2 ^ 30 < n) (h2 : n ≤ maxSliceLen) :
    goStagedSectorMetadata (some mem) n = .panic "slice bounds out of range" := by
  have hm : ¬ n > maxSliceLen := by omega
  have h0 : ¬ n = 0 := by omega
  have hc : n > maxCArrayLen := by
    simp only [maxCArrayLen]
    omega
  simp only [goStagedSectorMetadata, makeSlice, hm, h0, hc, if_false, if_true]

theorem goPieceInfos_over_capacity (L : Lib) (mem : Nat → FFIPieceMetadata) (n : Nat)
    (h1 : 2 ^ 30 < n) (h2 : n ≤ maxSliceLen) :
    goPieceInfos L (some mem) n = .panic "slice bounds out of range" := by
  have hm : ¬ n > maxSliceLen := by omega
  have h0 : ¬ n = 0 := by omega
  have hc : n > maxCArrayLen := by
    simp only [maxCArrayLen]
    omega
  simp only [goPieceInfos, makeSlice, hm, h0, hc, if_false, if_true]

theorem goSealedSectorMetadata_over_capacity (L : Lib) (mem : Nat → FFISealedSectorMetadata)
    (n : Nat) (h1 : 2 ^ 30 < n) (h2 : n ≤ maxSliceLen) :
    goSealedSectorMetadata L (some mem) n = .panic "slice bounds out of range" := by
  have hm : ¬ n > maxSliceLen := by omega
  have h0 : ¬ n = 0 := by omega
  have hc : n > maxCArrayLen := by
    simp only [maxCArrayLen]
    omega
  simp only [goSealedSectorMetadata, makeSlice, hm, h0, hc, if_false, if_true]

theorem over_capacity_in_range : 2 ^ 30 < 2 ^ 30 + 1 ∧ 2 ^ 30 + 1 ≤ maxSliceLen := by
  simp only [maxSliceLen]
  omega

/-! ## Lemmas on the decoding loops -/

theorem goStagedSectorMetadata_loop_spec (mem : Nat → FFIStagedSectorMetadata) :
    ∀ (k i : Nat) (sectors : List (Option stagedSectorMetadata)),
      sectors.length = i + k →
      (goStagedSectorMetadata.loop mem k i sectors).length = i + k ∧
      (∀ j, j < i → (goStagedSectorMetadata.loop mem k i sectors)[j]? = sectors[j]?) ∧
      (∀ j, i ≤ j → j < i + k →
        (goStagedSectorMetadata.loop mem k i sectors)[j]?
          = some (some { sectorID := (mem j).sector_id })) := by
  intro k
  induction k with
  | zero =>
    intro i sectors hlen
    refine ⟨by simpa [goStagedSectorMetadata.loop] using hlen, ?_, ?_⟩
    · intro j _
      simp [goStagedSectorMetadata.loop]
    · intro j h1 h2
      omega
  | succ k ih =>
    intro i sectors hlen
    have hlen2 : (sectors.set i (some { sectorID := (mem i).sector_id })).length = (i + 1) + k := by
      simp [hlen]; omega
    obtain ⟨h1, h2, h3⟩ := ih (i + 1) _ hlen2
    simp only [goStagedSectorMetadata.loop]
    refine ⟨by omega, ?_, ?_⟩
    · intro j hj
      rw [h2 j (by omega), List.getElem?_set_ne (by omega)]
    · intro j hj1 hj2
      by_cases hji : j = i
      · subst hji
        rw [h2 j (by omega), List.getElem?_set_self (by omega)]
      · exact h3 j (by omega) (by omega)

theorem stagedSectorIDs_loop_spec :
    ∀ (l : List (Option stagedSectorMetadata)) (idx : Nat) (ids : List Nat),
      ids.length = idx + l.length →
      (∀ j, j < l.length → ∃ m, l[j]? = some (some m)) →
      ∃ r, stagedSectorIDs.loop l idx ids = .ret r ∧ r.length = idx + l.length ∧
        (∀ j, j < idx → r[j]? = ids[j]?) ∧
        (∀ j, j < l.length → ∃ m, l[j]? = some (some m) ∧ r[idx + j]? = some m.sectorID) := by
  intro l
  induction l with
  | nil =>
    intro idx ids hlen _
    exact ⟨ids, by simp [stagedSectorIDs.loop], by simpa using hlen, fun _ _ => rfl,
      fun j hj => by simp at hj⟩
  | cons a rest ih =>
    intro idx ids hlen hall
    obtain ⟨m, hm⟩ := hall 0 (by simp)
    simp only [List.getElem?_cons_zero, Option.some.injEq] at hm
    subst hm
    have hrest : ∀ j, j < rest.length → ∃ m, rest[j]? = some (some m) := by
      intro j hj
      have := hall (j + 1) (by simp; omega)
      simpa using this
    have hlen2 : (ids.set idx m.sectorID).length = (idx + 1) + rest.length := by
      simp [hlen]; omega
    obtain ⟨r, hr, hrl, hpre, hpost⟩ := ih (idx + 1) _ hlen2 hrest
    refine ⟨r, by simpa [stagedSectorIDs.loop] using hr, by simp; omega, ?_, ?_⟩
    · intro j hj
      rw [hpre j (by omega), List.getElem?_set_ne (by omega)]
    · intro j hj
      cases j with
      | zero =>
        refine ⟨m, by simp, ?_⟩
        have hlt : idx < ids.length := by simp [hlen]
        rw [Nat.add_zero, hpre idx (by omega), List.getElem?_set_self hlt]
      | succ j =>
        obtain ⟨m2, hm2, hr2⟩ := hpost j (by simpa using hj)
        refine ⟨m2, by simpa using hm2, ?_⟩
        rw [← hr2]
        congr 1
        omega

theorem goStagedSectorMetadata_some (mem : Nat → FFIStagedSectorMetadata) (n : Nat)
    (hn : n ≤ 2 ^ 30) :
    ∃ l, goStagedSectorMetadata (some mem) n = .ret (l, none) ∧ l.length = n ∧
      ∀ j, j < n → l[j]? = some (some { sectorID := (mem j).sector_id }) := by
  by_cases h0 : n = 0
  · subst h0
    exact ⟨[], by simp [goStagedSectorMetadata, makeSlice_of_le _ 0 hn], rfl,
      fun j hj => by omega⟩
  · have hmax : ¬ n > maxCArrayLen := by simp [maxCArrayLen]; omega
    obtain ⟨h1, _, h3⟩ :=
      goStagedSectorMetadata_loop_spec mem n 0 (List.replicate n none) (by simp)
    refine ⟨goStagedSectorMetadata.loop mem n 0 (List.replicate n none),
      by simp only [goStagedSectorMetadata, makeSlice_of_le _ n hn, h0, hmax, if_false],
      by simpa using h1, ?_⟩
    intro j hj
    exact h3 j (by omega) (by omega)

theorem goPieceInfos_loop_ok (L : Lib) (ptrs : Nat → FFIPieceMetadata) :
    ∀ (k i : Nat) (ps : List (Option PieceInfo)),
      ps.length = i + k →
      (∀ j, i ≤ j → j < i + k → ∃ ref, L.Decode (ptrs j).piece_key = .ok ref) →
      ∃ out, goPieceInfos.loop L ptrs k i ps = (out, none) ∧ out.length = i + k ∧
        (∀ j, j < i → out[j]? = ps[j]?) ∧
        (∀ j, i ≤ j → j < i + k →
          ∃ ref, L.Decode (ptrs j).piece_key = .ok ref ∧
            out[j]? = some (some { Ref := ref, Size := (ptrs j).num_bytes })) := by
  intro k
  induction k with
  | zero =>
    intro i ps hlen _
    exact ⟨ps, rfl, by simpa using hlen, fun _ _ => rfl, fun j h1 h2 => by omega⟩
  | succ k ih =>
    intro i ps hlen hall
    obtain ⟨ref, href⟩ := hall i (by omega) (by omega)
    have hlen2 : (ps.set i (some { Ref := ref, Size := (ptrs i).num_bytes })).length
        = (i + 1) + k := by
      simp [hlen]; omega
    obtain ⟨out, ho, hol, hpre, hpost⟩ :=
      ih (i + 1) _ hlen2 (fun j h1 h2 => hall j (by omega) (by omega))
    refine ⟨out, by simp only [goPieceInfos.loop, href, ho], by omega, ?_, ?_⟩
    · intro j hj
      rw [hpre j (by omega), List.getElem?_set_ne (by omega)]
    · intro j hj1 hj2
      by_cases hji : j = i
      · subst hji
        exact ⟨ref, href, by rw [hpre j (by omega), List.getElem?_set_self (by omega)]⟩
      · exact hpost j (by omega) (by omega)

theorem goPieceInfos_loop_bad (L : Lib) (ptrs : Nat → FFIPieceMetadata) :
    ∀ (k i : Nat) (ps : List (Option PieceInfo)),
      (∃ j, i ≤ j ∧ j < i + k ∧ ∃ err, L.Decode (ptrs j).piece_key = .error err) →
      ∃ err, goPieceInfos.loop L ptrs k i ps = ([], some err) := by
  intro k
  induction k with
  | zero =>
    intro i ps ⟨j, h1, h2, _⟩
    omega
  | succ k ih =>
    intro i ps ⟨j, h1, h2, err, herr⟩
    cases hd : L.Decode (ptrs i).piece_key with
    | error e => exact ⟨e, by simp only [goPieceInfos.loop, hd]⟩
    | ok ref =>
      have hji : j ≠ i := by
        intro h
        subst h
        rw [hd] at herr
        cases herr
      obtain ⟨e, he⟩ := ih (i + 1) (ps.set i (some { Ref := ref, Size := (ptrs i).num_bytes }))
        ⟨j, by omega, by omega, err, herr⟩
      exact ⟨e, by simp only [goPieceInfos.loop, hd, he]⟩

/-- Within the slice capacity, `goPieceInfos` either meets a key that does not
decode and returns `nil` with an error, or renders every piece. -/
theorem goPieceInfos_spec (L : Lib) (src : Option (Nat → FFIPieceMetadata)) (size : Nat)
    (hsize : size ≤ 2 ^ 30) :
    (HasBadKey L src size ∧ ∃ err, goPieceInfos L src size = .ret ([], some err)) ∨
    (¬ HasBadKey L src size ∧
      ∃ ps, goPieceInfos L src size = .ret (ps, none) ∧ RendersPieces L src size ps) := by
  cases src with
  | none =>
    right
    refine ⟨fun ⟨mem, h, _⟩ => (by cases h), List.replicate size none,
      by simp only [goPieceInfos, makeSlice_of_le _ size hsize], ?_⟩
    unfold RendersPieces
    refine ⟨by simp, ?_, ?_⟩
    · intro mem h
      cases h
    · intro _ j hj
      simp [hj]
  | some mem =>
    by_cases h0 : size = 0
    · subst h0
      right
      refine ⟨fun ⟨_, _, j, hj, _⟩ => (by omega), [],
        by simp [goPieceInfos, makeSlice_of_le _ 0 hsize], ?_⟩
      unfold RendersPieces
      refine ⟨rfl, ?_, ?_⟩
      · intro _ _ j hj
        omega
      · intro h
        cases h
    · have hmax : ¬ size > maxCArrayLen := by simp [maxCArrayLen]; omega
      have hgo : goPieceInfos L (some mem) size
          = .ret (goPieceInfos.loop L mem size 0 (List.replicate size none)) := by
        simp only [goPieceInfos, makeSlice_of_le _ size hsize, h0, hmax, if_false]
      by_cases hbad : HasBadKey L (some mem) size
      · left
        obtain ⟨mem2, hm, j, hj, err, herr⟩ := hbad
        cases hm
        obtain ⟨e, he⟩ := goPieceInfos_loop_bad L mem size 0 (List.replicate size none)
          ⟨j, by omega, by omega, err, herr⟩
        exact ⟨⟨mem, rfl, j, hj, err, herr⟩, e, by rw [hgo, he]⟩
      · right
        have hall : ∀ j, 0 ≤ j → j < 0 + size → ∃ ref, L.Decode (mem j).piece_key = .ok ref := by
          intro j _ hj
          cases hd : L.Decode (mem j).piece_key with
          | error e => exact absurd ⟨mem, rfl, j, by omega, e, hd⟩ hbad
          | ok ref => exact ⟨ref, rfl⟩
        obtain ⟨out, ho, hol, _, hpost⟩ :=
          goPieceInfos_loop_ok L mem size 0 (List.replicate size none) (by simp) hall
        refine ⟨hbad, out, by rw [hgo, ho], ?_⟩
        unfold RendersPieces
        refine ⟨by omega, ?_, ?_⟩
        · intro mem2 hm j hj
          cases hm
          exact hpost j (by omega) (by omega)
        · intro h
          cases h

/-! ## C1: the poller is seeded with the engine's staged sector IDs -/

/-- C1 (amended): when the store type is known and the engine answers init and
get-staged-sectors with status 0 and a non-null list of at most `2 ^ 30`
entries, NewRustSectorBuilder succeeds and constructs exactly one poller, whose
seed list has the length of the engine's list and holds, at every index, the
engine's sector ID at that index. -/
theorem NewRustSectorBuilder_seeds_poller (L : Lib) (E : Engine) (cfg : RustSectorBuilderConfig)
    (scfg : Pointer) (mem : Nat → FFIStagedSectorMetadata)
    (hstore : L.CSectorStoreType cfg.SectorStoreType = .ok scfg)
    (hinit : (E.init_sector_builder (initArgs L cfg scfg)).status_code = 0)
    (hstatus : (E.get_staged_sectors
      (E.init_sector_builder (initArgs L cfg scfg)).sector_builder).status_code = 0)
    (hptr : (E.get_staged_sectors
      (E.init_sector_builder (initArgs L cfg scfg)).sector_builder).sectors_ptr = some mem)
    (hlen : (E.get_staged_sectors
      (E.init_sector_builder (initArgs L cfg scfg)).sector_builder).sectors_len ≤ 2 ^ 30) :
    ∃ ids sb,
      (NewRustSectorBuilder L E cfg).out = .ret (some sb, none) ∧
      sb.sealStatusPoller = some ⟨ids⟩ ∧
      pollerSeeds (NewRustSectorBuilder L E cfg).trace = [ids] ∧
      ids.length = (E.get_staged_sectors
        (E.init_sector_builder (initArgs L cfg scfg)).sector_builder).sectors_len ∧
      ∀ i, i < (E.get_staged_sectors
          (E.init_sector_builder (initArgs L cfg scfg)).sector_builder).sectors_len →
        ids[i]? = some (mem i).sector_id := by
  obtain ⟨l, hl, hll, hlj⟩ := goStagedSectorMetadata_some mem _ hlen
  obtain ⟨ids, hids, hidl, _, hidj⟩ :=
    stagedSectorIDs_loop_spec l 0 (List.replicate l.length 0) (by simp)
      (fun j hj => ⟨_, hlj j (by omega)⟩)
  refine ⟨ids,
    { blockService := cfg.BlockService
      ptr := (E.init_sector_builder (initArgs L cfg scfg)).sector_builder
      sealStatusPoller := some ⟨ids⟩ }, ?_, rfl, ?_, by omega, ?_⟩
  · simp only [NewRustSectorBuilder, hstore, hinit, stagedSectors, hstatus, hptr, hl]
    simp [hids]
  · simp only [NewRustSectorBuilder, hstore, hinit, stagedSectors, hstatus, hptr, hl]
    simp [hids, pollerSeeds]
  · intro i hi
    obtain ⟨m, hm, hr⟩ := hidj i (by omega)
    rw [hlj i hi] at hm
    simp only [Option.some.injEq] at hm
    subst hm
    simpa using hr

/-- C1, witness: an engine with staged sectors `[3, 5]` seeds the poller with
exactly `[3, 5]`. -/
theorem NewRustSectorBuilder_seeds_poller_witness :
    pollerSeeds (NewRustSectorBuilder libText engStaged35 cfgDisk).trace = [[3, 5]] ∧
    ∃ ids sb,
      (NewRustSectorBuilder libText engStaged35 cfgDisk).out = .ret (some sb, none) ∧
      sb.sealStatusPoller = some ⟨ids⟩ ∧
      pollerSeeds (NewRustSectorBuilder libText engStaged35 cfgDisk).trace = [ids] ∧
      ids.length = 2 ∧
      ∀ i, i < 2 → ids[i]? = some (memStaged35 i).sector_id :=
  ⟨by decide,
    NewRustSectorBuilder_seeds_poller libText engStaged35 cfgDisk 100 memStaged35
      rfl rfl rfl rfl (by decide)⟩

/-- C1, counterexample: the engine answers get-staged-sectors with status 0 and a
non-null list of `2 ^ 30 + 1` entries; NewRustSectorBuilder panics when it
slices the list and constructs no poller at all. -/
theorem NewRustSectorBuilder_huge_list_panics :
    (engStagedHuge.get_staged_sectors 1).status_code = 0 ∧
    (engStagedHuge.get_staged_sectors 1).sectors_ptr.isSome = true ∧
    (engStagedHuge.get_staged_sectors 1).sectors_len = 2 ^ 30 + 1 ∧
    (NewRustSectorBuilder libText engStagedHuge cfgDisk).out
      = .panic "slice bounds out of range" ∧
    pollerSeeds (NewRustSectorBuilder libText engStagedHuge cfgDisk).trace = [] := by
  have h := goStagedSectorMetadata_over_capacity memStaged35 (2 ^ 30 + 1)
    over_capacity_in_range.1 over_capacity_in_range.2
  refine ⟨rfl, rfl, rfl, ?_, ?_⟩ <;>
    simp only [NewRustSectorBuilder, libText, cfgDisk, engStagedHuge, engOk, stagedSectors, h,
      ne_eq, not_true_eq_false, if_false, if_true, List.cons_append, List.nil_append,
      pollerSeeds]

/-! ## C2 - C4: the status function of the poller -/

/-- C2: when the engine answers get-seal-status with status code 0 and seal
status Failed, findSealedSectorMetadata returns no metadata and an error whose
text is exactly the engine's seal error message. -/
theorem findSealedSectorMetadata_failed (L : Lib) (E : Engine) (sb : RustSectorBuilder)
    (sectorID : Nat)
    (hstatus : (E.get_seal_status sb.ptr sectorID).status_code = 0)
    (hfailed : (E.get_seal_status sb.ptr sectorID).seal_status_code = FFISealStatus.Failed) :
    ∃ err, (findSealedSectorMetadata L E sb sectorID).out = .ret (none, some err) ∧
      err.Error = (E.get_seal_status sb.ptr sectorID).seal_error_msg := by
  refine ⟨errors.New (E.get_seal_status sb.ptr sectorID).seal_error_msg, ?_, rfl⟩
  simp [findSealedSectorMetadata, hstatus, hfailed]

/-- C2, witness: sector 42 failing with "disk full" yields an error whose text
is "disk full". -/
theorem findSealedSectorMetadata_failed_witness :
    ∃ err, (findSealedSectorMetadata libText engDiskFull sbOne 42).out = .ret (none, some err) ∧
      err.Error = "disk full" :=
  findSealedSectorMetadata_failed libText engDiskFull sbOne 42 rfl rfl

/-- C3 (amended): when the engine answers get-seal-status for sector `s` with
status code 0, seal status Sealed, at most `2 ^ 30` pieces and every embedded
piece key decodable, findSealedSectorMetadata returns no error and a record
whose SectorID is `s`, whose CommD, CommR, CommRStar and Proof are the engine's
comm_d, comm_r, comm_r_star (32 bytes each) and snark_proof (384 bytes), and
whose Pieces render the engine's piece list: as many entries, in the same
order, each with the piece's decoded reference and byte size (every entry
missing when the engine's piece pointer is null). -/
theorem findSealedSectorMetadata_sealed (L : Lib) (E : Engine) (sb : RustSectorBuilder)
    (sectorID : Nat)
    (hstatus : (E.get_seal_status sb.ptr sectorID).status_code = 0)
    (hsealed : (E.get_seal_status sb.ptr sectorID).seal_status_code = FFISealStatus.Sealed)
    (hlen : (E.get_seal_status sb.ptr sectorID).pieces_len ≤ 2 ^ 30)
    (hkeys : ∀ mem, (E.get_seal_status sb.ptr sectorID).pieces_ptr = some mem →
      ∀ j, j < (E.get_seal_status sb.ptr sectorID).pieces_len →
        ∃ ref, L.Decode (mem j).piece_key = .ok ref) :
    ∃ sealed, (findSealedSectorMetadata L E sb sectorID).out = .ret (some sealed, none) ∧
      sealed.SectorID = sectorID ∧
      sealed.CommD = (E.get_seal_status sb.ptr sectorID).comm_d ∧
      sealed.CommR = (E.get_seal_status sb.ptr sectorID).comm_r ∧
      sealed.CommRStar = (E.get_seal_status sb.ptr sectorID).comm_r_star ∧
      sealed.Proof = (E.get_seal_status sb.ptr sectorID).snark_proof ∧
      sealed.CommD.bytes.length = 32 ∧ sealed.CommR.bytes.length = 32 ∧
      sealed.CommRStar.bytes.length = 32 ∧ sealed.Proof.bytes.length = 384 ∧
      RendersPieces L (E.get_seal_status sb.ptr sectorID).pieces_ptr
        (E.get_seal_status sb.ptr sectorID).pieces_len sealed.Pieces := by
  rcases goPieceInfos_spec L _ _ hlen with ⟨⟨mem, hm, j, hj, err, herr⟩, _⟩ | ⟨_, ps, hps, hrender⟩
  · obtain ⟨ref, href⟩ := hkeys mem hm j hj
    rw [href] at herr
    cases herr
  · refine ⟨
      { CommD := (E.get_seal_status sb.ptr sectorID).comm_d
        CommR := (E.get_seal_status sb.ptr sectorID).comm_r
        CommRStar := (E.get_seal_status sb.ptr sectorID).comm_r_star
        Pieces := ps
        Proof := (E.get_seal_status sb.ptr sectorID).snark_proof
        SectorID := sectorID }, ?_, rfl, rfl, rfl, rfl, rfl,
      ByteArr.size_eq _, ByteArr.size_eq _, ByteArr.size_eq _, ByteArr.size_eq _, hrender⟩
    simp [findSealedSectorMetadata, hstatus, hsealed, hps, copy_GoBytes]

/-- C3, witness: sector 7 sealed with the one piece `p1` of 32 bytes. -/
theorem findSealedSectorMetadata_sealed_witness :
    ∃ sealed, (findSealedSectorMetadata libText engSealedP1 sbOne 7).out
        = .ret (some sealed, none) ∧
      sealed.SectorID = 7 ∧ sealed.CommD = comm 1 ∧ sealed.CommR = comm 2 ∧
      sealed.CommRStar = comm 3 ∧ sealed.Proof = snark 4 ∧
      sealed.CommD.bytes.length = 32 ∧ sealed.CommR.bytes.length = 32 ∧
      sealed.CommRStar.bytes.length = 32 ∧ sealed.Proof.bytes.length = 384 ∧
      RendersPieces libText (some memPieceP1) 1 sealed.Pieces :=
  findSealedSectorMetadata_sealed libText engSealedP1 sbOne 7 rfl rfl (by decide)
    (fun mem hm _ _ => by
      have h := Option.some.inj hm
      subst h
      exact ⟨⟨"p1"⟩, by simp [libText, memPieceP1]⟩)

/-- C3, counterexample: the engine reports status code 0 and seal status Sealed
with `2 ^ 30 + 1` pieces whose key `p1` decodes; findSealedSectorMetadata
panics when it slices the piece list and returns no record. -/
theorem findSealedSectorMetadata_huge_pieces_panics :
    (engSealedHuge.get_seal_status 1 7).status_code = 0 ∧
    (engSealedHuge.get_seal_status 1 7).seal_status_code = FFISealStatus.Sealed ∧
    (engSealedHuge.get_seal_status 1 7).pieces_len = 2 ^ 30 + 1 ∧
    libText.Decode (memPieceP1 0).piece_key = .ok ⟨"p1"⟩ ∧
    (findSealedSectorMetadata libText engSealedHuge sbOne 7).out
      = .panic "slice bounds out of range" := by
  refine ⟨rfl, rfl, rfl, by simp [libText, memPieceP1], ?_⟩
  have h := goPieceInfos_over_capacity libText memPieceP1 (2 ^ 30 + 1)
    over_capacity_in_range.1 over_capacity_in_range.2
  simp only [findSealedSectorMetadata, engSealedHuge, engOk, sbOne, h, ne_eq,
    not_true_eq_false, if_false, if_true, reduceCtorEq]

/-- C4: findSealedSectorMetadata returns the no-event outcome (no metadata and
no error) if and only if the engine's status code is 0 and the seal status is
Pending or Sealing; and a seal status other than Pending, Sealing, Sealed and
Failed always yields an error and no metadata. -/
theorem findSealedSectorMetadata_no_event_iff (L : Lib) (E : Engine) (sb : RustSectorBuilder)
    (sectorID : Nat) :
    ((findSealedSectorMetadata L E sb sectorID).out = .ret (none, none) ↔
      ((E.get_seal_status sb.ptr sectorID).status_code = 0 ∧
        ((E.get_seal_status sb.ptr sectorID).seal_status_code = FFISealStatus.Pending ∨
          (E.get_seal_status sb.ptr sectorID).seal_status_code = FFISealStatus.Sealing))) ∧
    ((E.get_seal_status sb.ptr sectorID).seal_status_code ≠ FFISealStatus.Pending →
      (E.get_seal_status sb.ptr sectorID).seal_status_code ≠ FFISealStatus.Sealing →
      (E.get_seal_status sb.ptr sectorID).seal_status_code ≠ FFISealStatus.Sealed →
      (E.get_seal_status sb.ptr sectorID).seal_status_code ≠ FFISealStatus.Failed →
      ∃ err, (findSealedSectorMetadata L E sb sectorID).out = .ret (none, some err)) := by
  constructor
  · by_cases hs : (E.get_seal_status sb.ptr sectorID).status_code = 0
    · cases hc : (E.get_seal_status sb.ptr sectorID).seal_status_code with
      | Sealed =>
        rcases hg : goPieceInfos L (E.get_seal_status sb.ptr sectorID).pieces_ptr
            (E.get_seal_status sb.ptr sectorID).pieces_len with ⟨ps, _ | e⟩ | msg <;>
          simp [findSealedSectorMetadata, hs, hc, hg]
      | Pending => simp [findSealedSectorMetadata, hs, hc]
      | Failed => simp [findSealedSectorMetadata, hs, hc]
      | Sealing => simp [findSealedSectorMetadata, hs, hc]
      | Other code => simp [findSealedSectorMetadata, hs, hc]
    · simp [findSealedSectorMetadata, hs]
  · intro h1 h2 h3 h4
    by_cases hs : (E.get_seal_status sb.ptr sectorID).status_code = 0
    · exact ⟨errors.New "unexpected seal status", by
        simp [findSealedSectorMetadata, hs, h1, h2, h3, h4]⟩
    · exact ⟨errors.New (E.get_seal_status sb.ptr sectorID).error_msg, by
        simp [findSealedSectorMetadata, hs]⟩

/-! ## Engine failures, operation by operation -/

theorem readInto_length (size : Nat) (rd : ReadResult) : (readInto size rd).length = size := by
  simp only [readInto, copySlice, List.length_append, List.length_take, List.length_drop,
    List.length_replicate]
  omega

theorem NewRustSectorBuilder_init_error (L : Lib) (E : Engine) (cfg : RustSectorBuilderConfig)
    (scfg : Pointer) (hstore : L.CSectorStoreType cfg.SectorStoreType = .ok scfg)
    (h : (E.init_sector_builder (initArgs L cfg scfg)).status_code ≠ 0) :
    NewRustSectorBuilder L E cfg =
      ⟨[Event.init_sector_builder (initArgs L cfg scfg)],
        .ret (none, some (errors.New (E.init_sector_builder (initArgs L cfg scfg)).error_msg))⟩ := by
  simp [NewRustSectorBuilder, hstore, h]

theorem GetMaxUserBytesPerStagedSector_error (E : Engine) (sb : RustSectorBuilder)
    (h : (E.get_max_user_bytes_per_staged_sector sb.ptr).status_code ≠ 0) :
    GetMaxUserBytesPerStagedSector E sb =
      ⟨[Event.get_max_user_bytes_per_staged_sector sb.ptr],
        .ret (0, some (errors.New (E.get_max_user_bytes_per_staged_sector sb.ptr).error_msg))⟩ := by
  simp [GetMaxUserBytesPerStagedSector, h]

theorem AddPiece_fetched (L : Lib) (E : Engine) (sb : RustSectorBuilder) (pi : PieceInfo)
    (node : IpldNode) (r : DagReader)
    (hget : sb.blockService.Get pi.Ref = .ok node)
    (hreader : sb.blockService.NewDagReader node = .ok r)
    (hread : (r.Read pi.Size).err = none) :
    AddPiece L E sb pi =
      if (E.add_piece sb.ptr (L.CidString pi.Ref) (readInto pi.Size (r.Read pi.Size))
          pi.Size).status_code ≠ 0 then
        ⟨[Event.add_piece sb.ptr (L.CidString pi.Ref) (readInto pi.Size (r.Read pi.Size)) pi.Size],
          .ret (0, some (errors.New (E.add_piece sb.ptr (L.CidString pi.Ref)
            (readInto pi.Size (r.Read pi.Size)) pi.Size).error_msg))⟩
      else
        ⟨[Event.add_piece sb.ptr (L.CidString pi.Ref) (readInto pi.Size (r.Read pi.Size)) pi.Size,
            Event.go_addSectorID (E.add_piece sb.ptr (L.CidString pi.Ref)
              (readInto pi.Size (r.Read pi.Size)) pi.Size).sector_id],
          .ret ((E.add_piece sb.ptr (L.CidString pi.Ref)
            (readInto pi.Size (r.Read pi.Size)) pi.Size).sector_id, none)⟩ := by
  simp only [AddPiece, hget, hreader, hread, readInto_length]
  split <;> simp

theorem SealAllStagedSectors_error (E : Engine) (sb : RustSectorBuilder)
    (h : (E.seal_all_staged_sectors sb.ptr).status_code ≠ 0) :
    SealAllStagedSectors E sb =
      ⟨[Event.seal_all_staged_sectors sb.ptr],
        .ret (some (errors.New (E.seal_all_staged_sectors sb.ptr).error_msg))⟩ := by
  simp [SealAllStagedSectors, h]

theorem SealedSectors_error (L : Lib) (E : Engine) (sb : RustSectorBuilder)
    (h : (E.get_sealed_sectors sb.ptr).status_code ≠ 0) :
    SealedSectors L E sb =
      ⟨[Event.get_sealed_sectors sb.ptr],
        .ret ([], some (errors.New (E.get_sealed_sectors sb.ptr).error_msg))⟩ := by
  simp [SealedSectors, h]

theorem ReadPieceFromSealedSector_error (L : Lib) (E : Engine) (sb : RustSectorBuilder)
    (pieceCid : Cid)
    (h : (E.read_piece_from_sealed_sector sb.ptr (L.CidString pieceCid)).status_code ≠ 0) :
    ReadPieceFromSealedSector L E sb pieceCid =
      ⟨[Event.read_piece_from_sealed_sector sb.ptr (L.CidString pieceCid)],
        .ret (none, some (errors.New
          (E.read_piece_from_sealed_sector sb.ptr (L.CidString pieceCid)).error_msg))⟩ := by
  simp [ReadPieceFromSealedSector, h]

/-! ## C5, C6: AddPiece -/

/-- C5, the code at the failing input: the piece `p1` is declared with 4 bytes,
the reader delivers 2 bytes and no error; AddPiece does not fail: it submits
the 4-byte buffer (the 2 bytes read, then 2 zero bytes) to the engine's
add-piece request and returns the engine's sector ID 7. -/
theorem AddPiece_short_read_not_detected :
    (readerOf [1, 2]).Read pieceP1Short.Size = ⟨[1, 2], none⟩ ∧
    ((readerOf [1, 2]).Read pieceP1Short.Size).data.length < pieceP1Short.Size ∧
    (AddPiece libText engOk sbOne pieceP1Short).out = .ret (7, none) ∧
    submittedPieces (AddPiece libText engOk sbOne pieceP1Short).trace
      = [("p1", [1, 2, 0, 0])] := by
  have h := AddPiece_fetched libText engOk sbOne pieceP1Short ⟨[1, 2]⟩ (readerOf [1, 2])
    rfl rfl rfl
  refine ⟨rfl, by decide, ?_, ?_⟩
  · rw [h]
    rfl
  · rw [h]
    decide

/-- C6: when the piece fetch succeeds (the reference resolves, a reader is
built, and the read reports no error), then: if the engine's add-piece response
has status 0, AddPiece returns the response's sector ID with no error and
dispatches exactly that one ID to the poller's addSectorID; if the status is
not 0, AddPiece returns sector ID 0 with an error and dispatches no ID. -/
theorem AddPiece_registers_sector (L : Lib) (E : Engine) (sb : RustSectorBuilder)
    (pi : PieceInfo) (node : IpldNode) (r : DagReader)
    (hget : sb.blockService.Get pi.Ref = .ok node)
    (hreader : sb.blockService.NewDagReader node = .ok r)
    (hread : (r.Read pi.Size).err = none) :
    ((E.add_piece sb.ptr (L.CidString pi.Ref) (readInto pi.Size (r.Read pi.Size))
        pi.Size).status_code = 0 →
      (AddPiece L E sb pi).out = .ret ((E.add_piece sb.ptr (L.CidString pi.Ref)
        (readInto pi.Size (r.Read pi.Size)) pi.Size).sector_id, none) ∧
      dispatchedIDs (AddPiece L E sb pi).trace = [(E.add_piece sb.ptr (L.CidString pi.Ref)
        (readInto pi.Size (r.Read pi.Size)) pi.Size).sector_id]) ∧
    ((E.add_piece sb.ptr (L.CidString pi.Ref) (readInto pi.Size (r.Read pi.Size))
        pi.Size).status_code ≠ 0 →
      (∃ err, (AddPiece L E sb pi).out = .ret (0, some err)) ∧
      dispatchedIDs (AddPiece L E sb pi).trace = []) := by
  rw [AddPiece_fetched L E sb pi node r hget hreader hread]
  constructor
  · intro h
    simp [h, dispatchedIDs]
  · intro h
    simp [h, dispatchedIDs]

/-- C6, witness: the piece `p1` of 2 bytes is fetched in full; the engine that
answers sector 7 makes AddPiece return 7 and dispatch `[7]`, the engine that
answers status 1 makes it return 0 with an error and dispatch nothing. -/
theorem AddPiece_registers_sector_witness :
    ((AddPiece libText engOk sbOne pieceP1).out = .ret (7, none) ∧
      dispatchedIDs (AddPiece libText engOk sbOne pieceP1).trace = [7]) ∧
    ((∃ err, (AddPiece libText engBoom sbOne pieceP1).out = .ret (0, some err)) ∧
      dispatchedIDs (AddPiece libText engBoom sbOne pieceP1).trace = []) :=
  ⟨(AddPiece_registers_sector libText engOk sbOne pieceP1 ⟨[1, 2]⟩ (readerOf [1, 2])
      rfl rfl rfl).1 rfl,
    (AddPiece_registers_sector libText engBoom sbOne pieceP1 ⟨[1, 2]⟩ (readerOf [1, 2])
      rfl rfl rfl).2 (by decide)⟩

/-! ## C7: Close and destroy -/

/-- Every successful NewRustSectorBuilder has registered the finalizer. -/
theorem NewRustSectorBuilder_sets_finalizer (L : Lib) (E : Engine) (cfg : RustSectorBuilderConfig)
    (sb : RustSectorBuilder) (h : (NewRustSectorBuilder L E cfg).out = .ret (some sb, none)) :
    Event.SetFinalizer ∈ (NewRustSectorBuilder L E cfg).trace := by
  unfold NewRustSectorBuilder at h ⊢
  split at h
  · simp at h
  · simp only at h ⊢
    split at h
    · simp at h
    · rename_i hstatus
      simp only [hstatus, if_false]
      split at h
      · simp at h
      · simp at h
      · rename_i metadata _
        cases hids : stagedSectorIDs.loop metadata 0 (List.replicate metadata.length 0) with
        | panic msg => simp [hids] at h
        | ret ids => simp

/-- C7 (amended): for every builder, Close stops the poller exactly once, makes
no request to the engine (in particular it does not invoke destroy), returns no
error and leaves the handle as it was. The engine's destroy is invoked by the
method destroy, which is the body of the finalizer that every successful
NewRustSectorBuilder registers: it invokes destroy exactly once, on the
builder's handle, and clears the handle. -/
theorem Close_stops_poller_only (sb : RustSectorBuilder) :
    (Close sb).trace = [Event.stop] ∧
    destroyedHandles (Close sb).trace = [] ∧
    (Close sb).out = .ret (sb, none) ∧
    destroyedHandles (finalizer sb).trace = [sb.ptr] ∧
    (finalizer sb).out = .ret { sb with ptr := nil } ∧
    (∀ L E cfg, (NewRustSectorBuilder L E cfg).out = .ret (some sb, none) →
      Event.SetFinalizer ∈ (NewRustSectorBuilder L E cfg).trace) :=
  ⟨rfl, rfl, rfl, rfl, rfl, fun L E cfg h => NewRustSectorBuilder_sets_finalizer L E cfg sb h⟩

/-- C7, witness: the builder that NewRustSectorBuilder returns for the staged
sectors `[3, 5]`: Close stops its poller and does not destroy; its finalizer
was registered and destroys handle 1. -/
theorem Close_stops_poller_only_witness :
    destroyedHandles (Close ⟨storeCounting, 1, some ⟨[3, 5]⟩⟩).trace = [] ∧
    destroyedHandles (finalizer ⟨storeCounting, 1, some ⟨[3, 5]⟩⟩).trace = [1] ∧
    Event.SetFinalizer ∈ (NewRustSectorBuilder libText engStaged35 cfgDisk).trace :=
  ⟨(Close_stops_poller_only ⟨storeCounting, 1, some ⟨[3, 5]⟩⟩).2.1,
    (Close_stops_poller_only ⟨storeCounting, 1, some ⟨[3, 5]⟩⟩).2.2.2.1,
    (Close_stops_poller_only ⟨storeCounting, 1, some ⟨[3, 5]⟩⟩).2.2.2.2.2
      libText engStaged35 cfgDisk (by
        simp [NewRustSectorBuilder, libText, cfgDisk, engStaged35, engOk, stagedSectors,
          goStagedSectorMetadata, goStagedSectorMetadata.loop, maxCArrayLen, makeSlice, maxSliceLen,
          memStaged35,
          stagedSectorIDs.loop, storeCounting])⟩

/-- C7, counterexample: after Close on a builder with handle 1 the engine's
destroy has been invoked zero times and the handle is still 1, not nil. -/
theorem Close_does_not_destroy :
    destroyedHandles (Close sbOne).trace = [] ∧
    (Close sbOne).out = .ret (sbOne, none) ∧
    sbOne.ptr = 1 ∧ sbOne.ptr ≠ nil :=
  ⟨rfl, rfl, rfl, by decide⟩

/-! ## C8, C9: engine failures as seen by the caller -/

/-- C8: for each engine-backed operation, a response with a status code other
than 0 makes the operation fail with no success payload (nil / 0) and an
error whose text is the engine's error message verbatim: the init call of
NewRustSectorBuilder (reached when the store type is known),
GetMaxUserBytesPerStagedSector, the add-piece call of AddPiece (reached when the
piece fetch succeeds), SealAllStagedSectors, SealedSectors and
ReadPieceFromSealedSector. -/
theorem engine_failure_message_verbatim (L : Lib) (E : Engine) (sb : RustSectorBuilder) :
    (∀ cfg scfg, L.CSectorStoreType cfg.SectorStoreType = .ok scfg →
      (E.init_sector_builder (initArgs L cfg scfg)).status_code ≠ 0 →
      ∃ err, (NewRustSectorBuilder L E cfg).out = .ret (none, some err) ∧
        err.Error = (E.init_sector_builder (initArgs L cfg scfg)).error_msg) ∧
    ((E.get_max_user_bytes_per_staged_sector sb.ptr).status_code ≠ 0 →
      ∃ err, (GetMaxUserBytesPerStagedSector E sb).out = .ret (0, some err) ∧
        err.Error = (E.get_max_user_bytes_per_staged_sector sb.ptr).error_msg) ∧
    (∀ pi node r, sb.blockService.Get pi.Ref = .ok node →
      sb.blockService.NewDagReader node = .ok r →
      (r.Read pi.Size).err = none →
      (E.add_piece sb.ptr (L.CidString pi.Ref) (readInto pi.Size (r.Read pi.Size))
        pi.Size).status_code ≠ 0 →
      ∃ err, (AddPiece L E sb pi).out = .ret (0, some err) ∧
        err.Error = (E.add_piece sb.ptr (L.CidString pi.Ref)
          (readInto pi.Size (r.Read pi.Size)) pi.Size).error_msg) ∧
    ((E.seal_all_staged_sectors sb.ptr).status_code ≠ 0 →
      ∃ err, (SealAllStagedSectors E sb).out = .ret (some err) ∧
        err.Error = (E.seal_all_staged_sectors sb.ptr).error_msg) ∧
    ((E.get_sealed_sectors sb.ptr).status_code ≠ 0 →
      ∃ err, (SealedSectors L E sb).out = .ret ([], some err) ∧
        err.Error = (E.get_sealed_sectors sb.ptr).error_msg) ∧
    (∀ pieceCid,
      (E.read_piece_from_sealed_sector sb.ptr (L.CidString pieceCid)).status_code ≠ 0 →
      ∃ err, (ReadPieceFromSealedSector L E sb pieceCid).out = .ret (none, some err) ∧
        err.Error = (E.read_piece_from_sealed_sector sb.ptr (L.CidString pieceCid)).error_msg) := by
  refine ⟨?_, ?_, ?_, ?_, ?_, ?_⟩
  · intro cfg scfg hstore h
    exact ⟨errors.New _, by rw [NewRustSectorBuilder_init_error L E cfg scfg hstore h], rfl⟩
  · intro h
    exact ⟨errors.New _, by rw [GetMaxUserBytesPerStagedSector_error E sb h], rfl⟩
  · intro pi node r hget hreader hread h
    exact ⟨errors.New _, by rw [AddPiece_fetched L E sb pi node r hget hreader hread, if_pos h], rfl⟩
  · intro h
    exact ⟨errors.New _, by rw [SealAllStagedSectors_error E sb h], rfl⟩
  · intro h
    exact ⟨errors.New _, by rw [SealedSectors_error L E sb h], rfl⟩
  · intro pieceCid h
    exact ⟨errors.New _, by rw [ReadPieceFromSealedSector_error L E sb pieceCid h], rfl⟩

/-- C8, witness: the engine that answers status 1 with the message "boom" makes
each of the six operations fail with an error whose text is "boom". -/
theorem engine_failure_message_verbatim_witness :
    (∃ err, (NewRustSectorBuilder libText engBoom cfgDisk).out = .ret (none, some err) ∧
      err.Error = "boom") ∧
    (∃ err, (GetMaxUserBytesPerStagedSector engBoom sbOne).out = .ret (0, some err) ∧
      err.Error = "boom") ∧
    (∃ err, (AddPiece libText engBoom sbOne pieceP1).out = .ret (0, some err) ∧
      err.Error = "boom") ∧
    (∃ err, (SealAllStagedSectors engBoom sbOne).out = .ret (some err) ∧ err.Error = "boom") ∧
    (∃ err, (SealedSectors libText engBoom sbOne).out = .ret ([], some err) ∧
      err.Error = "boom") ∧
    (∃ err, (ReadPieceFromSealedSector libText engBoom sbOne ⟨"p1"⟩).out
        = .ret (none, some err) ∧ err.Error = "boom") :=
  ⟨(engine_failure_message_verbatim libText engBoom sbOne).1 cfgDisk 100 rfl (by decide),
    (engine_failure_message_verbatim libText engBoom sbOne).2.1 (by decide),
    (engine_failure_message_verbatim libText engBoom sbOne).2.2.1 pieceP1 ⟨[1, 2]⟩
      (readerOf [1, 2]) rfl rfl rfl (by decide),
    (engine_failure_message_verbatim libText engBoom sbOne).2.2.2.1 (by decide),
    (engine_failure_message_verbatim libText engBoom sbOne).2.2.2.2.1 (by decide),
    (engine_failure_message_verbatim libText engBoom sbOne).2.2.2.2.2 ⟨"p1"⟩ (by decide)⟩

/-- C9 (amended): for every public operation that fails because the engine
reported a status other than 0 (AddPiece, SealAllStagedSectors,
ReadPieceFromSealedSector, GetMaxUserBytesPerStagedSector, SealedSectors), the
returned error is `errors.New` of the engine's message: it carries the engine's
unmodified message and no local context, so it does not depend on which
operation failed. -/
theorem engine_failure_error_unwrapped (L : Lib) (E : Engine) (sb : RustSectorBuilder) :
    (∀ pi node r, sb.blockService.Get pi.Ref = .ok node →
      sb.blockService.NewDagReader node = .ok r →
      (r.Read pi.Size).err = none →
      (E.add_piece sb.ptr (L.CidString pi.Ref) (readInto pi.Size (r.Read pi.Size))
        pi.Size).status_code ≠ 0 →
      (AddPiece L E sb pi).out = .ret (0, some (errors.New (E.add_piece sb.ptr
        (L.CidString pi.Ref) (readInto pi.Size (r.Read pi.Size)) pi.Size).error_msg))) ∧
    ((E.seal_all_staged_sectors sb.ptr).status_code ≠ 0 →
      (SealAllStagedSectors E sb).out
        = .ret (some (errors.New (E.seal_all_staged_sectors sb.ptr).error_msg))) ∧
    (∀ pieceCid,
      (E.read_piece_from_sealed_sector sb.ptr (L.CidString pieceCid)).status_code ≠ 0 →
      (ReadPieceFromSealedSector L E sb pieceCid).out = .ret (none, some (errors.New
        (E.read_piece_from_sealed_sector sb.ptr (L.CidString pieceCid)).error_msg))) ∧
    ((E.get_max_user_bytes_per_staged_sector sb.ptr).status_code ≠ 0 →
      (GetMaxUserBytesPerStagedSector E sb).out
        = .ret (0, some (errors.New (E.get_max_user_bytes_per_staged_sector sb.ptr).error_msg))) ∧
    ((E.get_sealed_sectors sb.ptr).status_code ≠ 0 →
      (SealedSectors L E sb).out
        = .ret ([], some (errors.New (E.get_sealed_sectors sb.ptr).error_msg))) ∧
    (∀ msg, (errors.New msg).Error = msg) := by
  refine ⟨?_, ?_, ?_, ?_, ?_, fun _ => rfl⟩
  · intro pi node r hget hreader hread h
    rw [AddPiece_fetched L E sb pi node r hget hreader hread, if_pos h]
  · intro h
    rw [SealAllStagedSectors_error E sb h]
  · intro pieceCid h
    rw [ReadPieceFromSealedSector_error L E sb pieceCid h]
  · intro h
    rw [GetMaxUserBytesPerStagedSector_error E sb h]
  · intro h
    rw [SealedSectors_error L E sb h]

/-- C9, witness: with the engine that answers status 1 and "boom", the five
operations return the one error `errors.New "boom"`. -/
theorem engine_failure_error_unwrapped_witness :
    (AddPiece libText engBoom sbOne pieceP1).out = .ret (0, some (errors.New "boom")) ∧
    (SealAllStagedSectors engBoom sbOne).out = .ret (some (errors.New "boom")) ∧
    (ReadPieceFromSealedSector libText engBoom sbOne ⟨"p1"⟩).out
      = .ret (none, some (errors.New "boom")) ∧
    (GetMaxUserBytesPerStagedSector engBoom sbOne).out = .ret (0, some (errors.New "boom")) ∧
    (SealedSectors libText engBoom sbOne).out = .ret ([], some (errors.New "boom")) :=
  ⟨(engine_failure_error_unwrapped libText engBoom sbOne).1 pieceP1 ⟨[1, 2]⟩
      (readerOf [1, 2]) rfl rfl rfl (by decide),
    (engine_failure_error_unwrapped libText engBoom sbOne).2.1 (by decide),
    (engine_failure_error_unwrapped libText engBoom sbOne).2.2.1 ⟨"p1"⟩ (by decide),
    (engine_failure_error_unwrapped libText engBoom sbOne).2.2.2.1 (by decide),
    (engine_failure_error_unwrapped libText engBoom sbOne).2.2.2.2.1 (by decide)⟩

/-- C9, counterexample: the engine answers add-piece and seal-all-staged-sectors
with status 1 and the same message "boom"; AddPiece and SealAllStagedSectors
return the same error, whose text is just "boom": nothing in it identifies
the operation that failed. -/
theorem AddPiece_SealAll_errors_coincide :
    (AddPiece libText engBoom sbOne pieceP1).out = .ret (0, some (errors.New "boom")) ∧
    (SealAllStagedSectors engBoom sbOne).out = .ret (some (errors.New "boom")) ∧
    (errors.New "boom").Error = "boom" := by
  refine ⟨?_, rfl, rfl⟩
  rw [AddPiece_fetched libText engBoom sbOne pieceP1 ⟨[1, 2]⟩ (readerOf [1, 2]) rfl rfl rfl]
  rfl

/-! ## C10: decoding the list of sealed sectors -/

theorem goSealedSectorMetadata_loop_ok (L : Lib) (mem : Nat → FFISealedSectorMetadata) :
    ∀ (k i : Nat) (sectors : List (Option SealedSectorMetadata)),
      sectors.length = i + k →
      (∀ j, i ≤ j → j < i + k → (mem j).pieces_len ≤ 2 ^ 30 ∧
        ¬ HasBadKey L (mem j).pieces_ptr (mem j).pieces_len) →
      ∃ out, goSealedSectorMetadata.loop L mem k i sectors = .ret (out, none) ∧
        out.length = i + k ∧
        (∀ j, j < i → out[j]? = sectors[j]?) ∧
        (∀ j, i ≤ j → j < i + k →
          ∃ sealed, out[j]? = some (some sealed) ∧ RendersSector L (mem j) sealed) := by
  intro k
  induction k with
  | zero =>
    intro i sectors hlen _
    exact ⟨sectors, rfl, by simpa using hlen, fun _ _ => rfl, fun j h1 h2 => by omega⟩
  | succ k ih =>
    intro i sectors hlen hall
    obtain ⟨hle, hgood⟩ := hall i (by omega) (by omega)
    rcases goPieceInfos_spec L (mem i).pieces_ptr (mem i).pieces_len hle with
      ⟨hbad, _⟩ | ⟨_, ps, hps, hrender⟩
    · exact absurd hbad hgood
    · have hlen2 : (sectors.set i (some
          { CommD := (mem i).comm_d
            CommR := (mem i).comm_r
            CommRStar := (mem i).comm_r_star
            Pieces := ps
            Proof := (mem i).snark_proof
            SectorID := (mem i).sector_id })).length = (i + 1) + k := by
        simp [hlen]; omega
      obtain ⟨out, ho, hol, hpre, hpost⟩ :=
        ih (i + 1) _ hlen2 (fun j h1 h2 => hall j (by omega) (by omega))
      refine ⟨out, ?_, by omega, ?_, ?_⟩
      · simp only [goSealedSectorMetadata.loop, hps, copy_GoBytes, ho]
      · intro j hj
        rw [hpre j (by omega), List.getElem?_set_ne (by omega)]
      · intro j hj1 hj2
        by_cases hji : j = i
        · subst hji
          refine ⟨_, by rw [hpre j (by omega), List.getElem?_set_self (by omega)], ?_⟩
          exact ⟨rfl, rfl, rfl, rfl, rfl, ByteArr.size_eq _, hrender⟩
        · exact hpost j (by omega) (by omega)

theorem goSealedSectorMetadata_loop_bad (L : Lib) (mem : Nat → FFISealedSectorMetadata) :
    ∀ (k i : Nat) (sectors : List (Option SealedSectorMetadata)),
      (∀ j, i ≤ j → j < i + k → (mem j).pieces_len ≤ 2 ^ 30) →
      (∃ j, i ≤ j ∧ j < i + k ∧ HasBadKey L (mem j).pieces_ptr (mem j).pieces_len) →
      ∃ err, goSealedSectorMetadata.loop L mem k i sectors = .ret ([], some err) := by
  intro k
  induction k with
  | zero =>
    intro i sectors _ ⟨j, h1, h2, _⟩
    omega
  | succ k ih =>
    intro i sectors hle ⟨j, h1, h2, hbad⟩
    rcases goPieceInfos_spec L (mem i).pieces_ptr (mem i).pieces_len
        (hle i (by omega) (by omega)) with
      ⟨_, err, herr⟩ | ⟨hgood, ps, hps, _⟩
    · exact ⟨errors.Wrap err "failed to marshal from string to cid", by
        simp only [goSealedSectorMetadata.loop, herr]⟩
    · have hji : j ≠ i := by
        intro h
        subst h
        exact hgood hbad
      obtain ⟨e, he⟩ := ih (i + 1) (sectors.set i (some
          { CommD := (mem i).comm_d
            CommR := (mem i).comm_r
            CommRStar := (mem i).comm_r_star
            Pieces := ps
            Proof := (mem i).snark_proof
            SectorID := (mem i).sector_id }))
        (fun j h1 h2 => hle j (by omega) (by omega)) ⟨j, by omega, by omega, hbad⟩
      exact ⟨e, by simp only [goSealedSectorMetadata.loop, hps, copy_GoBytes, he]⟩

/-- C10 (amended): for an engine list of `n ≤ 2 ^ 30` sealed-sector entries at a
non-null pointer, each with at most `2 ^ 30` pieces, goSealedSectorMetadata
fails if and only if some embedded piece key of some entry does not decode, and
then it returns no partial list; otherwise it returns exactly `n` records in
the engine's order, the i-th present and carrying the i-th entry's sector ID,
CommD, CommR, CommRStar, 384-byte proof and its pieces in order with their
decoded references and sizes (all of an entry's pieces missing when its piece
pointer is null). -/
theorem goSealedSectorMetadata_decodes (L : Lib) (mem : Nat → FFISealedSectorMetadata) (n : Nat)
    (hn : n ≤ 2 ^ 30)
    (hpieces : ∀ i, i < n → (mem i).pieces_len ≤ 2 ^ 30) :
    ((∃ l err, goSealedSectorMetadata L (some mem) n = .ret (l, some err)) ↔
      ∃ i, i < n ∧ HasBadKey L (mem i).pieces_ptr (mem i).pieces_len) ∧
    (∀ l err, goSealedSectorMetadata L (some mem) n = .ret (l, some err) → l = []) ∧
    ((¬ ∃ i, i < n ∧ HasBadKey L (mem i).pieces_ptr (mem i).pieces_len) →
      ∃ l, goSealedSectorMetadata L (some mem) n = .ret (l, none) ∧ l.length = n ∧
        ∀ i, i < n → ∃ sealed, l[i]? = some (some sealed) ∧ RendersSector L (mem i) sealed) := by
  have hgo : goSealedSectorMetadata L (some mem) n
      = goSealedSectorMetadata.loop L mem n 0 (List.replicate n none) := by
    by_cases h0 : n = 0
    · subst h0
      simp [goSealedSectorMetadata, goSealedSectorMetadata.loop, makeSlice_of_le _ 0 hn]
    · have hmax : ¬ n > maxCArrayLen := by simp [maxCArrayLen]; omega
      simp only [goSealedSectorMetadata, makeSlice_of_le _ n hn, h0, hmax, if_false]
  by_cases hbad : ∃ i, i < n ∧ HasBadKey L (mem i).pieces_ptr (mem i).pieces_len
  · obtain ⟨i, hi, hb⟩ := hbad
    obtain ⟨e, he⟩ := goSealedSectorMetadata_loop_bad L mem n 0 (List.replicate n none)
      (fun j _ hj => hpieces j (by omega)) ⟨i, by omega, by omega, hb⟩
    rw [hgo, he]
    refine ⟨⟨fun _ => ⟨i, hi, hb⟩, fun _ => ⟨[], e, rfl⟩⟩, ?_, ?_⟩
    · intro l err h
      cases h
      rfl
    · intro h
      exact absurd ⟨i, hi, hb⟩ h
  · obtain ⟨out, ho, hol, _, hpost⟩ :=
      goSealedSectorMetadata_loop_ok L mem n 0 (List.replicate n none) (by simp)
        (fun j _ hj => ⟨hpieces j (by omega), fun hb => hbad ⟨j, by omega, hb⟩⟩)
    rw [hgo, ho]
    refine ⟨⟨?_, fun h => absurd h hbad⟩, ?_, ?_⟩
    · rintro ⟨l, err, h⟩
      cases h
    · intro l err h
      cases h
    · intro _
      exact ⟨out, rfl, by omega, fun i hi => hpost i (by omega) (by omega)⟩

/-- C10, witness: a list of 2 entries in which entry 1 holds a piece with an
undecodable key makes goSealedSectorMetadata fail. -/
theorem goSealedSectorMetadata_decodes_witness :
    ∃ l err, goSealedSectorMetadata libText (some memSealedBad) 2 = .ret (l, some err) :=
  (goSealedSectorMetadata_decodes libText memSealedBad 2 (by decide)
    (fun i _ => by
      simp only [memSealedBad, memSealedP1]
      split <;> exact Nat.one_le_two_pow)).1.mpr
    ⟨1, by decide, memPieceBad, rfl, 0, by decide, errors.New "cid too short", rfl⟩

/-- C10, counterexample: for a non-null list of `2 ^ 30 + 1` entries in which
every piece key decodes, goSealedSectorMetadata neither fails with an error nor
returns records: it panics on the slice expression. -/
theorem goSealedSectorMetadata_huge_list_panics :
    goSealedSectorMetadata libText (some memSealedP1) (2 ^ 30 + 1)
      = .panic "slice bounds out of range" := by
  exact goSealedSectorMetadata_over_capacity libText memSealedP1 (2 ^ 30 + 1)
    over_capacity_in_range.1 over_capacity_in_range.2

/-! ## C12: the decoders on a null pointer -/

theorem stagedSectorIDs_loop_nil_entry (rest : List (Option stagedSectorMetadata)) (idx : Nat)
    (ids : List Nat) :
    stagedSectorIDs.loop (none :: rest) idx ids
      = .panic "invalid memory address or nil pointer dereference" := by
  simp [stagedSectorIDs.loop]

/-- C12 (amended): for every source pointer and every size `n ≤ 2 ^ 30`,
goStagedSectorMetadata returns without error a list of exactly `n` entries, and
all entries are present if and only if the pointer is non-null or `n = 0`; with
a null pointer it returns `n` missing entries and no error. When the engine
answers get-staged-sectors with status 0, a null pointer and a positive length
of at most `2 ^ 30`, these missing entries are what the ID-extraction loop of
NewRustSectorBuilder reads sectorID from: it panics on the first one and no
poller is constructed. On a null pointer and `n ≤ 2 ^ 30`,
goSealedSectorMetadata and goPieceInfos too return `n` missing entries and no
error. -/
theorem goStagedSectorMetadata_null_pointer :
    (∀ (src : Option (Nat → FFIStagedSectorMetadata)) (n : Nat), n ≤ 2 ^ 30 →
      ∃ l, goStagedSectorMetadata src n = .ret (l, none) ∧ l.length = n ∧
        ((∀ e, e ∈ l → e ≠ none) ↔ (src ≠ none ∨ n = 0)) ∧
        (src = none → l = List.replicate n none)) ∧
    (∀ (L : Lib) (E : Engine) (cfg : RustSectorBuilderConfig) (scfg : Pointer),
      L.CSectorStoreType cfg.SectorStoreType = .ok scfg →
      (E.init_sector_builder (initArgs L cfg scfg)).status_code = 0 →
      (E.get_staged_sectors
        (E.init_sector_builder (initArgs L cfg scfg)).sector_builder).status_code = 0 →
      (E.get_staged_sectors
        (E.init_sector_builder (initArgs L cfg scfg)).sector_builder).sectors_ptr = none →
      0 < (E.get_staged_sectors
        (E.init_sector_builder (initArgs L cfg scfg)).sector_builder).sectors_len →
      (E.get_staged_sectors
        (E.init_sector_builder (initArgs L cfg scfg)).sector_builder).sectors_len ≤ 2 ^ 30 →
      (NewRustSectorBuilder L E cfg).out
        = .panic "invalid memory address or nil pointer dereference" ∧
      pollerSeeds (NewRustSectorBuilder L E cfg).trace = []) ∧
    (∀ (L : Lib) (n : Nat), n ≤ 2 ^ 30 →
      goSealedSectorMetadata L none n = .ret (List.replicate n none, none) ∧
      goPieceInfos L none n = .ret (List.replicate n none, none)) := by
  refine ⟨?_, ?_, fun L n hn => ⟨?_, ?_⟩⟩
  · intro src n hcap
    cases src with
    | none =>
      refine ⟨List.replicate n none,
        by simp only [goStagedSectorMetadata, makeSlice_of_le _ n hcap], by simp, ?_,
        fun _ => rfl⟩
      constructor
      · intro h
        right
        by_contra hn
        exact h none (by simp [hn]) rfl
      · intro h e he
        rcases h with h | h
        · exact absurd rfl h
        · subst h
          simp at he
    | some mem =>
      obtain ⟨l, hl, hlen, hget⟩ := goStagedSectorMetadata_some mem n hcap
      refine ⟨l, hl, hlen, ?_, fun h => by cases h⟩
      constructor
      · intro _
        left
        simp
      · intro _ e he
        obtain ⟨j, hj, hje⟩ := List.getElem_of_mem he
        have h2 := hget j (by omega)
        rw [List.getElem?_eq_getElem hj, hje] at h2
        intro hnone
        rw [hnone] at h2
        cases h2
  · intro L E cfg scfg hstore hinit hstatus hptr hlen hcap
    obtain ⟨k, hk⟩ : ∃ k, (E.get_staged_sectors
        (E.init_sector_builder (initArgs L cfg scfg)).sector_builder).sectors_len = k + 1 :=
      ⟨_, (Nat.succ_pred_eq_of_pos hlen).symm⟩
    rw [hk] at hcap
    constructor
    · simp only [NewRustSectorBuilder, hstore, hinit, stagedSectors, hstatus, hptr, hk,
        goStagedSectorMetadata, makeSlice_of_le _ (k + 1) hcap]
      simp [List.replicate_succ, stagedSectorIDs.loop]
    · simp only [NewRustSectorBuilder, hstore, hinit, stagedSectors, hstatus, hptr, hk,
        goStagedSectorMetadata, makeSlice_of_le _ (k + 1) hcap]
      simp [List.replicate_succ, stagedSectorIDs.loop, pollerSeeds]
  · simp only [goSealedSectorMetadata, makeSlice_of_le _ n hn]
  · simp only [goPieceInfos, makeSlice_of_le _ n hn]

/-- C12, witness: a null pointer with size 2 gives two missing entries and no
error, and the engine that answers get-staged-sectors so makes
NewRustSectorBuilder panic without constructing a poller. -/
theorem goStagedSectorMetadata_null_pointer_witness :
    (∃ l, goStagedSectorMetadata none 2 = .ret (l, none) ∧ l.length = 2 ∧
        ((∀ e, e ∈ l → e ≠ none) ↔ ((none : Option (Nat → FFIStagedSectorMetadata)) ≠ none ∨
          2 = 0)) ∧
        ((none : Option (Nat → FFIStagedSectorMetadata)) = none → l = List.replicate 2 none)) ∧
    ((NewRustSectorBuilder libText engStagedNull cfgDisk).out
        = .panic "invalid memory address or nil pointer dereference" ∧
      pollerSeeds (NewRustSectorBuilder libText engStagedNull cfgDisk).trace = []) :=
  ⟨goStagedSectorMetadata_null_pointer.1 none 2 (by decide),
    goStagedSectorMetadata_null_pointer.2.1 libText engStagedNull cfgDisk 100
      rfl rfl rfl rfl (by decide) (by decide)⟩

/-- C12, counterexample: for a non-null pointer and size `2 ^ 30 + 1`
goStagedSectorMetadata does not return a list: it panics on the slice
expression; and for a null pointer and size `2 ^ 61` it does not return `2 ^ 61`
missing entries: `make` panics before the pointer is looked at. -/
theorem goStagedSectorMetadata_huge_size_panics :
    goStagedSectorMetadata (some memStaged35) (2 ^ 30 + 1)
        = .panic "slice bounds out of range" ∧
    goStagedSectorMetadata none (2 ^ 61) = .panic "makeslice: len out of range" := by
  refine ⟨goStagedSectorMetadata_over_capacity memStaged35 (2 ^ 30 + 1)
    over_capacity_in_range.1 over_capacity_in_range.2, ?_⟩
  have hm : (2 : Nat) ^ 61 > maxSliceLen := by
    simp only [maxSliceLen]
    omega
  simp only [goStagedSectorMetadata, makeSlice, hm, if_true]

/-! ## C11: the staging capacity handed to the engine -/

theorem stagedSectors_trace (E : Engine) (sb : RustSectorBuilder) :
    (stagedSectors E sb).trace = [Event.get_staged_sectors sb.ptr] := by
  unfold stagedSectors
  simp only
  split
  · rfl
  · split <;> rfl

theorem NewRustSectorBuilder_init_events (L : Lib) (E : Engine) (cfg : RustSectorBuilderConfig)
    (args : InitArgs)
    (h : Event.init_sector_builder args ∈ (NewRustSectorBuilder L E cfg).trace) :
    ∃ scfg, L.CSectorStoreType cfg.SectorStoreType = .ok scfg ∧ args = initArgs L cfg scfg := by
  unfold NewRustSectorBuilder at h
  split at h
  · simp at h
  · rename_i scfg hstore
    refine ⟨scfg, hstore, ?_⟩
    simp only at h
    split at h
    · simpa using h
    · split at h
      · simpa [stagedSectors_trace] using h
      · simpa [stagedSectors_trace] using h
      · split at h
        · simpa [stagedSectors_trace] using h
        · simpa [stagedSectors_trace] using h

theorem afterRequests_within (S : StagingEngine) (hS : S.HonoursMaximum) :
    ∀ (trace : List Event) (s : StagingState),
      s.open_staged_sectors ≤ s.max_staged_sectors →
      (afterRequests S s trace).max_staged_sectors = s.max_staged_sectors ∧
      (afterRequests S s trace).open_staged_sectors ≤ s.max_staged_sectors := by
  intro trace
  induction trace with
  | nil =>
    intro s h
    exact ⟨rfl, h⟩
  | cons e rest ih =>
    intro s h
    cases e with
    | add_piece ptr piece_key data len =>
      obtain ⟨hmax, hopen⟩ := hS.2 s ptr piece_key data len
      obtain ⟨h1, h2⟩ := ih (S.on_add_piece s ptr piece_key data len)
        (by rw [hmax]; exact hopen h)
      simp only [afterRequests]
      exact ⟨by rw [h1, hmax], by rw [← hmax]; exact h2⟩
    | _ => simpa only [afterRequests] using ih s h

theorem afterAddPieces_within (L : Lib) (S : StagingEngine) (sb : RustSectorBuilder)
    (hS : S.HonoursMaximum) :
    ∀ (pieces : List PieceInfo) (s : StagingState),
      s.open_staged_sectors ≤ s.max_staged_sectors →
      (afterAddPieces L S sb s pieces).max_staged_sectors = s.max_staged_sectors ∧
      (afterAddPieces L S sb s pieces).open_staged_sectors ≤ s.max_staged_sectors := by
  intro pieces
  induction pieces with
  | nil =>
    intro s h
    exact ⟨rfl, h⟩
  | cons pi rest ih =>
    intro s h
    obtain ⟨hmax, hopen⟩ := afterRequests_within S hS (AddPiece L (S.respond s) sb pi).trace s h
    obtain ⟨h1, h2⟩ := ih (afterRequests S s (AddPiece L (S.respond s) sb pi).trace)
      (by rw [hmax]; exact hopen)
    simp only [afterAddPieces]
    exact ⟨by rw [h1, hmax], by rw [← hmax]; exact h2⟩

theorem stagingReuse_honours : stagingReuse.HonoursMaximum := by
  refine ⟨fun args => ⟨rfl, Nat.zero_le _⟩, fun s ptr key data len => ⟨rfl, fun _ => ?_⟩⟩
  exact Nat.min_le_right _ _

/-- C11: MaxNumStagedSectors is 1, and for every configuration every init
request that NewRustSectorBuilder makes carries max-staged-sectors =
MaxNumStagedSectors = 1, whatever the fields of the configuration; the request
is made whenever the store type is known. For the capacity invariant, the count
of open staged sectors is state of the engine: for every engine that honours
the maximum it is initialised with, every builder and every sequence of
AddPiece calls after that init request, the number of open staged sectors never
exceeds the configured maximum, and that maximum is MaxNumStagedSectors. -/
theorem NewRustSectorBuilder_passes_max_staged_sectors (L : Lib)
    (cfg : RustSectorBuilderConfig) :
    MaxNumStagedSectors = 1 ∧
    (∀ (E : Engine) (args : InitArgs),
      Event.init_sector_builder args ∈ (NewRustSectorBuilder L E cfg).trace →
      args.max_num_staged_sectors = MaxNumStagedSectors) ∧
    (∀ (E : Engine) (scfg : Pointer), L.CSectorStoreType cfg.SectorStoreType = .ok scfg →
      (NewRustSectorBuilder L E cfg).trace.head?
        = some (Event.init_sector_builder (initArgs L cfg scfg))) ∧
    (∀ (S : StagingEngine) (sb : RustSectorBuilder) (scfg : Pointer) (pieces : List PieceInfo),
      S.HonoursMaximum →
      (afterAddPieces L S sb (S.on_init (initArgs L cfg scfg)) pieces).open_staged_sectors
        ≤ (afterAddPieces L S sb (S.on_init (initArgs L cfg scfg)) pieces).max_staged_sectors ∧
      (afterAddPieces L S sb (S.on_init (initArgs L cfg scfg)) pieces).max_staged_sectors
        = MaxNumStagedSectors) := by
  refine ⟨rfl, ?_, ?_, ?_⟩
  · intro E args h
    obtain ⟨scfg, _, hargs⟩ := NewRustSectorBuilder_init_events L E cfg args h
    rw [hargs]
    rfl
  · intro E scfg hstore
    unfold NewRustSectorBuilder
    simp only [hstore]
    split
    · rfl
    · split
      · rfl
      · rfl
      · split <;> rfl
  · intro S sb scfg pieces hS
    obtain ⟨hmax, hopen⟩ := hS.1 (initArgs L cfg scfg)
    obtain ⟨h1, h2⟩ := afterAddPieces_within L S sb hS pieces (S.on_init (initArgs L cfg scfg))
      (by rw [hmax]; exact hopen)
    refine ⟨by rw [h1]; exact h2, ?_⟩
    rw [h1, hmax]
    rfl

/-- C11, witness: with the configuration `cfgOther` the init request carries
max-staged-sectors 1, and with the engine that reuses its open sector two
AddPiece calls leave at most one staged sector open. -/
theorem NewRustSectorBuilder_passes_max_staged_sectors_witness :
    (initArgs libText cfgOther 100).max_num_staged_sectors = MaxNumStagedSectors ∧
    ((afterAddPieces libText stagingReuse sbOne (stagingReuse.on_init (initArgs libText cfgOther 100))
        [pieceP1, pieceP1]).open_staged_sectors
      ≤ (afterAddPieces libText stagingReuse sbOne
        (stagingReuse.on_init (initArgs libText cfgOther 100))
        [pieceP1, pieceP1]).max_staged_sectors ∧
     (afterAddPieces libText stagingReuse sbOne (stagingReuse.on_init (initArgs libText cfgOther 100))
        [pieceP1, pieceP1]).max_staged_sectors = MaxNumStagedSectors) :=
  ⟨(NewRustSectorBuilder_passes_max_staged_sectors libText cfgOther).2.1 engStaged35
      (initArgs libText cfgOther 100) (by
        simp [NewRustSectorBuilder, libText, cfgOther, engStaged35, engOk, stagedSectors,
          goStagedSectorMetadata, goStagedSectorMetadata.loop, maxCArrayLen, makeSlice, maxSliceLen,
          memStaged35,
          stagedSectorIDs.loop]),
    (NewRustSectorBuilder_passes_max_staged_sectors libText cfgOther).2.2.2 stagingReuse sbOne
      100 [pieceP1, pieceP1] stagingReuse_honours⟩

end Sectorbuilder
